import Mathlib

/-
Verification of the replay-summarizer core (src/lib/parser.ts, src/lib/utils.ts,
src/lib/pokemonIcons.ts) against its specification.

The TypeScript sources are shallowly embedded: strings are Lean `String`s
(operated on through their `List Char` data), JS `undefined` is `Option`,
JS exceptions (TypeError on property access of undefined, explicit `throw`)
are `Except JsError`, and the mutable `ParseContext` is threaded explicitly.
JS `Number(...)` is modelled for whitespace-trimmed decimal integer literals
(the only shapes the protocol uses); every other string maps to NaN, and
NaN is never equal to anything, as in JS.  Character classes (\s, case
mapping) are modelled over ASCII, which covers the protocol's records.
-/

namespace PsVis

/-- ASCII model of the JS regex whitespace class used by trim and split. -/
def isWs (c : Char) : Bool :=
  c == ' ' || c == '\t' || c == '\n' || c == '\r'

def dropWs (l : List Char) : List Char := l.dropWhile isWs

/-- JS String.prototype.trim (ASCII whitespace). -/
def jsTrimL (l : List Char) : List Char :=
  ((dropWs ((dropWs l).reverse)).reverse)

def jsTrim (s : String) : String := String.mk (jsTrimL s.data)

/-- Splitter for raw.trim().split(s!).filter(Boolean) over the class \s+ :
the whitespace-separated words of the string. -/
def jsWordsAux : List Char → List Char → List String
  | acc, [] => if acc.isEmpty then [] else [String.mk acc.reverse]
  | acc, c :: rest =>
    if isWs c then
      if acc.isEmpty then jsWordsAux [] rest
      else String.mk acc.reverse :: jsWordsAux [] rest
    else jsWordsAux (c :: acc) rest

def jsWords (s : String) : List String := jsWordsAux [] s.data

/-- JS String.prototype.split with a one-character separator (the only kind
the source uses); like JS, keeps empty fields and maps "" to one empty field. -/
def splitCharAux (sep : Char) : List Char → List Char → List String
  | acc, [] => [String.mk acc.reverse]
  | acc, c :: rest =>
    if c == sep then String.mk acc.reverse :: splitCharAux sep [] rest
    else splitCharAux sep (c :: acc) rest

def jsSplitChar (sep : Char) (s : String) : List String := splitCharAux sep [] s.data

/-- Array.prototype.join with the given separator. -/
def joinSep (sep : String) : List String → String
  | [] => ""
  | x :: xs => xs.foldl (fun a b => a ++ sep ++ b) x

/-- JS String.prototype.includes, on char lists. -/
def containsSubL (n : List Char) : List Char → Bool
  | [] => n.isEmpty
  | c :: rest => n.isPrefixOf (c :: rest) || containsSubL n rest

def containsSub (s sub : String) : Bool := containsSubL sub.data s.data

/-- The remainder of `l` after the first occurrence of `n` (used to model an
unanchored regex match that captures everything after a literal). -/
def restAfterL (n : List Char) : List Char → Option (List Char)
  | [] => if n.isEmpty then some [] else none
  | c :: rest =>
    if n.isPrefixOf (c :: rest) then some ((c :: rest).drop n.length)
    else restAfterL n rest

def restAfter (s sub : String) : Option String :=
  (restAfterL sub.data s.data).map String.mk

def toLowerL (l : List Char) : List Char := l.map Char.toLower

def jsToLower (s : String) : String := String.mk (toLowerL s.data)

def jsToUpper (s : String) : String := String.mk (s.data.map Char.toUpper)

/-- A JS number as the protocol exercises it: an integer or NaN. -/
inductive JsNum where
  | nan : JsNum
  | int : Int → JsNum
deriving Repr, DecidableEq

/-- JS strict equality on numbers: NaN is equal to nothing, itself included. -/
def JsNum.eqb : JsNum → JsNum → Bool
  | .int a, .int b => a == b
  | _, _ => false

def JsNum.toDisplay : JsNum → String
  | .nan => "NaN"
  | .int i => toString i

def parseIntDigits : List Char → Option Nat
  | [] => none
  | l => if l.all Char.isDigit then some (l.foldl (fun n c => 10 * n + (c.toNat - 48)) 0) else none

/-- JS Number(string) restricted to trimmed optional-sign decimal integer
literals; the empty string is 0 and everything else NaN (see header note). -/
def jsNumberOfString (s : String) : JsNum :=
  let t := jsTrimL s.data
  match t with
  | [] => .int 0
  | '-' :: ds => match parseIntDigits ds with
    | some n => .int (-(n : Int))
    | none => .nan
  | '+' :: ds => match parseIntDigits ds with
    | some n => .int (n : Int)
    | none => .nan
  | ds => match parseIntDigits ds with
    | some n => .int (n : Int)
    | none => .nan

/-- JS Number(x) where x may be undefined (undefined maps to NaN). -/
def jsNumber : Option String → JsNum
  | none => .nan
  | some s => jsNumberOfString s

/-- Truthiness of a JS string-or-undefined value. -/
def truthy : Option String → Bool
  | none => false
  | some s => s ≠ ""

/-- JS template-literal rendering of a string-or-undefined value. -/
def jsShow : Option String → String
  | none => "undefined"
  | some s => s

/-- JS runtime failure: a thrown Error carries its message, a TypeError from
touching a property of undefined is represented without one. -/
inductive JsError where
  | typeError : JsError
  | error : String → JsError
deriving Repr, DecidableEq

/-- Accessing a value that must not be undefined (models the implicit throw
of undefined.prop in the source). -/
def require : Option α → Except JsError α
  | some a => .ok a
  | none => .error .typeError

/- ===== src/lib/utils.ts ===== -/

/-- utils.toId: lower-case and strip every character outside [a-z0-9]. -/
def toId (text : Option String) : String :=
  match text with
  | none => ""
  | some s =>
    if s = "" then ""
    else String.mk ((toLowerL s.data).filter fun c => c.isLower || c.isDigit)

def toIdS (s : String) : String := toId (some s)

/-- utils.toIconId: lower-case and strip every character outside [a-z0-9-]. -/
def toIconId (text : Option String) : String :=
  match text with
  | none => ""
  | some s =>
    if s = "" then ""
    else String.mk ((toLowerL s.data).filter fun c => c.isLower || c.isDigit || c == '-')

def toIconIdS (s : String) : String := toIconId (some s)

structure HPStatus where
  raw : String
  hp : Option String := none
  status : Option String := none
  fainted : Bool
deriving Repr, DecidableEq

/-- utils.parseHPStatus. -/
def parseHPStatus (raw : String) : HPStatus :=
  match jsWords raw with
  | [] => { raw := raw, fainted := false }
  | hpToken :: extra =>
    let fainted := extra.contains "fnt" || (hpToken == "0" && extra.isEmpty)
    let statusTokens := extra.filter (fun t => t != "fnt")
    let hp : Option String :=
      if containsSub hpToken "/" then some hpToken
      else if hpToken == "0" && fainted then some "0/100"
      else none
    { raw := raw
      hp := hp
      status := if statusTokens.isEmpty then none else some (joinSep " " statusTokens)
      fainted := fainted }

/-- The ^(digits)/100$ match inside utils.formatHPStatus. -/
def percentMatch (hp : String) : Option String :=
  let ds := hp.data.takeWhile Char.isDigit
  if ds.isEmpty then none
  else if hp.data.drop ds.length = '/' :: '1' :: '0' :: '0' :: [] then some (String.mk ds)
  else none

/-- utils.formatHPStatus. -/
def formatHPStatus (v : HPStatus) : String :=
  if v.fainted then "KO"
  else
    let hpPart : List String :=
      if truthy v.hp then
        match percentMatch (v.hp.getD "") with
        | some ds => [ds ++ "%"]
        | none => [v.hp.getD ""]
      else []
    let statusPart : List String :=
      if truthy v.status then [jsToUpper (v.status.getD "")] else []
    let joined := joinSep " " (hpPart ++ statusPart)
    if joined = "" then v.raw else joined

/-- utils.prettifyMove: capitalize the first character of each space chunk. -/
def prettifyMove (move : String) : String :=
  joinSep " "
    ((jsSplitChar ' ' move).map fun chunk =>
      match chunk.data with
      | [] => ""
      | c :: rest => String.mk (c.toUpper :: rest))

/-- The ^(ability|item|move):let-ws strip inside simplifyBracketText's from
case, case-insensitive. -/
def dropSourceKind (s : String) : String :=
  let low := toLowerL s.data
  if ("ability:".data).isPrefixOf low then String.mk (dropWs (s.data.drop 8))
  else if ("item:".data).isPrefixOf low then String.mk (dropWs (s.data.drop 5))
  else if ("move:".data).isPrefixOf low then String.mk (dropWs (s.data.drop 5))
  else s

/-- The lazy match of ^bracket(.+?)bracket-close: the tag is the shortest
nonempty prefix before a closing bracket. Returns (tag, everything after). -/
def findCloseAux : List Char → List Char → Option (List Char × List Char)
  | _, [] => none
  | acc, c :: rest => if c == ']' then some (acc.reverse, rest) else findCloseAux (c :: acc) rest

def bracketSplit (s : String) : Option (String × String) :=
  match s.data with
  | '[' :: c :: tail =>
    match findCloseAux [c] tail with
    | some (tag, rest) => some (String.mk tag, String.mk rest)
    | none => none
  | _ => none

/-- utils.simplifyBracketText (the annotation translation table). -/
def simplifyBracketText (segment : String) : String :=
  if segment = "" then ""
  else
    match bracketSplit segment with
    | none => jsTrim segment
    | some (tag, rest) =>
      let cleanRest := jsTrim rest
      if tag = "from" then (if cleanRest = "" then "" else dropSourceKind cleanRest)
      else if tag = "of" then ""
      else if tag = "msg" then cleanRest
      else if tag = "sid" then (if cleanRest = "" then "" else "side " ++ cleanRest)
      else if tag = "wisher" then (if cleanRest = "" then "Wish" else "Wish from " ++ cleanRest)
      else if tag = "spread" then ""
      else if tag = "move" then cleanRest
      else (if cleanRest = "" then tag else cleanRest)

/- ===== src/lib/pokemonIcons.ts ===== -/

def ICON_BASE_URL : String := "https://play.pokemonshowdown.com/sprites/gen5"

def DEFAULT_ICON_ID : String := "pokeball"

def IMAGE_RULES : String :=
  "display:inline-block;vertical-align:middle;width:24px;height:24px;margin-right:4px;image-rendering:pixelated"

def getPokemonIconUrl (rawId : Option String) : String :=
  let iconId :=
    match rawId with
    | some r => if jsTrim r ≠ "" then jsTrim r else DEFAULT_ICON_ID
    | none => DEFAULT_ICON_ID
  ICON_BASE_URL ++ "/" ++ iconId ++ ".png"

def escapeAltText (text : String) : String :=
  String.mk (text.data.flatMap fun c => if c == '"' then "&quot;".data else [c])

def renderPokemonIcon (rawId : Option String) (alt : String) : String :=
  "<img src=\"" ++ getPokemonIconUrl rawId ++ "\" alt=\"" ++ escapeAltText alt ++
    "\" width=\"24\" height=\"24\" style=\"" ++ IMAGE_RULES ++ "\" />"

/- ===== src/lib/parser.ts : data model ===== -/

/-- The two sides of a battle (the values of the TS union "p1" | "p2"). -/
inductive Side where
  | p1 : Side
  | p2 : Side
deriving Repr, DecidableEq

def sideKey : Side → String
  | .p1 => "p1"
  | .p2 => "p2"

structure PlayerMap where
  p1 : String
  p2 : String
deriving Repr, DecidableEq

structure PokemonState where
  ref : String
  side : Side
  nickname : Option String := none
  species : String
  iconId : String
  lastDisplayHP : Option String := none
  status : Option String := none
  fainted : Option Bool := none
deriving Repr, DecidableEq

inductive ActionType where
  | move : ActionType
  | switch : ActionType
  | cant : ActionType
  | note : ActionType
deriving Repr, DecidableEq

/-- DetailEntry / DualFormat: one fact in parallel markup and plain text. -/
structure DualFormat where
  html : String
  text : String
deriving Repr, DecidableEq

structure LeadEntry where
  side : Side
  html : String
  text : String
deriving Repr, DecidableEq

structure ActionSummary where
  type : ActionType
  actorRef : Option String := none
  actorName : Option String := none
  actorSpecies : Option String := none
  actorIconId : Option String := none
  side : Option Side := none
  verb : String
  targetRefs : Option (List String) := none
  targetNames : Option (List String) := none
  targetSpecies : Option (List String) := none
  details : List DualFormat := []
  fromIconId : Option String := none
  fromName : Option String := none
deriving Repr, DecidableEq

structure TurnSummary where
  turn : JsNum
  label : Option String := none
  headerEvents : List String := []
  actions : List ActionSummary := []
  endEvents : List DualFormat := []
  leadEntries : List LeadEntry := []
deriving Repr, DecidableEq

structure PendingBoost where
  ref : String
  stat : String
  amount : JsNum
  direction : String
deriving Repr, DecidableEq

structure PendingAbilityBoost where
  ref : String
  ability : Option String
  boosts : List PendingBoost
deriving Repr, DecidableEq

structure PendingSwitchAbility where
  ref : String
  ability : String
  effect : String
deriving Repr, DecidableEq

structure Teams where
  p1 : List String := []
  p2 : List String := []
  p1Set : List String := []
  p2Set : List String := []
deriving Repr, DecidableEq

structure SideConditionSets where
  p1 : List String := []
  p2 : List String := []
deriving Repr, DecidableEq

structure ActivePositions where
  p1a : Option String := none
  p1b : Option String := none
  p2a : Option String := none
  p2b : Option String := none
deriving Repr, DecidableEq

/-- ParseContext. The TS object aliases `currentTurn` into `turns` and
`currentAction` into the current turn's `actions`; the embedding replaces
both references by indices so that every mutation through them lands in the
lists they alias. -/
structure ParseContext where
  players : PlayerMap
  formatName : Option String := none
  turns : List TurnSummary
  currentTurnIdx : Nat
  currentAction : Option Nat
  pokemon : List (String × PokemonState) := []
  teams : Teams := {}
  winner : Option String := none
  loser : Option String := none
  resultNote : Option String := none
  leadPhase : Bool
  faintedThisTurn : List String := []
  currentWeather : Option String := none
  sideConditions : SideConditionSets := {}
  pendingAbilityBoost : Option PendingAbilityBoost := none
  recentMoves : List (String × String) := []
  pendingSwitchAbility : Option PendingSwitchAbility := none
  activePositions : ActivePositions := {}
  pendingFieldEnds : List String := []
  pendingProtects : List String := []
deriving Repr, DecidableEq

/- ===== src/lib/parser.ts : helpers ===== -/

def strStartsWith (s p : String) : Bool := p.data.isPrefixOf s.data

def strEndsWith (s p : String) : Bool := p.data.isSuffixOf s.data

/-- The JS short-circuit a || b over a string-or-undefined and a string. -/
def jsOr2 (a : Option String) (b : String) : String :=
  if truthy a then a.getD "" else b

/-- The JS short-circuit a || b where both sides are string-or-undefined. -/
def jsOrOptS (a b : Option String) : Option String :=
  if truthy a then a else b

/-- JS Set.prototype.add on an insertion-ordered list model of a Set. -/
def jsSetAdd (l : List String) (x : String) : List String :=
  if l.contains x then l else l ++ [x]

def resolveSide (ref : String) : Side :=
  if strStartsWith ref "p2" then .p2 else .p1

/-- resolveSide applied to a raw field that may be undefined (the source
calls ref.startsWith on it, which throws for undefined). -/
def resolveSideE (ref : Option String) : Except JsError Side := do
  let r ← require ref
  pure (resolveSide r)

def parseExtras (parts : List String) (startIndex : Nat) : List String :=
  ((parts.drop startIndex).map simplifyBracketText).filter (fun s => s ≠ "")

def formatExtras (extras : List String) : String :=
  let filtered := extras.filter (fun s => s ≠ "")
  if filtered.isEmpty then "" else " (" ++ joinSep "; " filtered ++ ")"

def normalizeWeatherName (weather : String) : String :=
  let normalized := jsToLower weather
  if containsSub normalized "raindance" then "Rain"
  else if containsSub normalized "sandstorm" then "Sandstorm"
  else if containsSub normalized "sunnyday" then "Sun"
  else if containsSub normalized "hail" then "Hail"
  else if containsSub normalized "snow" then "Snow"
  else weather

/-- The case-insensitive strip of a leading move-colon label (regex
move colon ws-star), shared by normalizeFieldName and -singleturn. -/
def dropMoveColon (s : String) : String :=
  if ("move:".data).isPrefixOf (toLowerL s.data) then String.mk (dropWs (s.data.drop 5)) else s

def normalizeFieldName (field : String) : String :=
  let normalized := dropMoveColon field
  if containsSub normalized "Psychic Terrain" then "Psychic Terrain"
  else if containsSub normalized "Electric Terrain" then "Electric Terrain"
  else if containsSub normalized "Grassy Terrain" then "Grassy Terrain"
  else if containsSub normalized "Misty Terrain" then "Misty Terrain"
  else if containsSub normalized "Trick Room" then "Trick Room"
  else if containsSub normalized "Magic Room" then "Magic Room"
  else if containsSub normalized "Wonder Room" then "Wonder Room"
  else if containsSub normalized "Gravity" then "Gravity"
  else normalized

def hasSpeciesOnBothSides (ctx : ParseContext) (species : String) : Bool :=
  ctx.teams.p1.contains species && ctx.teams.p2.contains species

def lookupPokemon (ctx : ParseContext) (ref : String) : Option PokemonState :=
  (ctx.pokemon.find? (fun p => p.1 == ref)).map (·.2)

def getPokemonDisplayName (ctx : ParseContext) (ref : String) : String :=
  match lookupPokemon ctx ref with
  | none => ref
  | some mon =>
    let baseName := jsOr2 mon.nickname mon.species
    let side := resolveSide ref
    if side == .p2 && hasSpeciesOnBothSides ctx mon.species then baseName ++ " (opp)"
    else baseName

def createTurn (turn : JsNum) (label : Option String := none) : TurnSummary :=
  { turn := turn, label := label }

def createInitialContext : ParseContext :=
  { players := { p1 := "Player 1", p2 := "Player 2" }
    turns := [createTurn (.int 0) (some "Lead")]
    currentTurnIdx := 0
    currentAction := none
    leadPhase := true }

/-- Placeholder for an out-of-bounds read through the current-turn index;
under the maintained invariants it is never produced. -/
def emptyTurn : TurnSummary := createTurn (.int 0)

def getCurrentTurn (ctx : ParseContext) : TurnSummary :=
  ctx.turns.getD ctx.currentTurnIdx emptyTurn

def mapCurrentTurn (f : TurnSummary → TurnSummary) (ctx : ParseContext) : ParseContext :=
  { ctx with turns := ctx.turns.set ctx.currentTurnIdx (f (getCurrentTurn ctx)) }

def dummyAction : ActionSummary := { type := .note, verb := "" }

def getCurrentAction (ctx : ParseContext) : Option ActionSummary :=
  ctx.currentAction.bind fun i => (getCurrentTurn ctx).actions.get? i

def mapCurrentAction (f : ActionSummary → ActionSummary) (ctx : ParseContext) : ParseContext :=
  match ctx.currentAction with
  | none => ctx
  | some i =>
    mapCurrentTurn (fun t => { t with actions := t.actions.set i (f (t.actions.getD i dummyAction)) }) ctx

/-- The sequential ampersand, less-than, greater-than escapes in makeDetail. -/
def escapeHtml (text : String) : String :=
  String.mk (text.data.flatMap fun c =>
    if c == '&' then "&amp;".data
    else if c == '<' then "&lt;".data
    else if c == '>' then "&gt;".data
    else [c])

def makeDetail (text : String) (html : Option String := none) : DualFormat :=
  if text = "" && !truthy html then { text := "", html := "" }
  else { text := text, html := html.getD (escapeHtml text) }

def isEndOfTurnSource (source : String) : Bool :=
  let lowerSource := jsToLower source
  containsSub lowerSource "leftovers" ||
  containsSub lowerSource "black sludge" ||
  containsSub lowerSource "psn" ||
  containsSub lowerSource "poison" ||
  containsSub lowerSource "brn" ||
  containsSub lowerSource "burn" ||
  containsSub lowerSource "sandstorm" ||
  containsSub lowerSource "hail" ||
  containsSub lowerSource "grassy terrain" ||
  containsSub lowerSource "aqua ring" ||
  containsSub lowerSource "ingrain" ||
  containsSub lowerSource "leech seed"

/-- appendDetail with an already-built DetailEntry argument. -/
def appendDetailEntry (ctx : ParseContext) (detail : DualFormat) (forceEndEvent : Bool := false) : ParseContext :=
  if detail.text = "" && detail.html = "" then ctx
  else if forceEndEvent || ctx.currentAction.isNone then
    mapCurrentTurn (fun t => { t with endEvents := t.endEvents ++ [detail] }) ctx
  else
    mapCurrentAction (fun a => { a with details := a.details ++ [detail] }) ctx

/-- appendDetail with a plain-string argument. -/
def appendDetailStr (ctx : ParseContext) (detail : String) (forceEndEvent : Bool := false) : ParseContext :=
  if jsTrim detail = "" then ctx
  else
    let entry := makeDetail detail
    if forceEndEvent || ctx.currentAction.isNone then
      mapCurrentTurn (fun t => { t with endEvents := t.endEvents ++ [entry] }) ctx
    else
      mapCurrentAction (fun a => { a with details := a.details ++ [entry] }) ctx

def pushHeaderEvent (ctx : ParseContext) (text : String) : ParseContext :=
  if (getCurrentTurn ctx).actions.length == 0 then
    mapCurrentTurn (fun t => { t with headerEvents := t.headerEvents ++ [text] }) ctx
  else
    mapCurrentTurn (fun t => { t with endEvents := t.endEvents ++ [makeDetail text] }) ctx

def flushPendingFieldEnds (ctx : ParseContext) : ParseContext :=
  if ctx.pendingFieldEnds.length == 0 then ctx
  else
    let combined := joinSep "; " (ctx.pendingFieldEnds.map (fun e => e ++ " ends"))
    let ctx := mapCurrentTurn (fun t => { t with endEvents := t.endEvents ++ [makeDetail combined] }) ctx
    { ctx with pendingFieldEnds := [] }

def iconHTML (iconId : Option String) (alt : String) : String :=
  renderPokemonIcon (some (jsOr2 iconId DEFAULT_ICON_ID)) alt

def parsePokemonRefAux (raw : String) : Option (String × String) :=
  let run := raw.data.takeWhile (fun c => c.isAlpha || c.isDigit)
  if run.isEmpty then none
  else
    match raw.data.drop run.length with
    | ':' :: rest =>
      if rest.isEmpty then none
      else
        let afterWs := dropWs rest
        let nick := if afterWs.isEmpty then rest.reverse.take 1 else afterWs
        some (String.mk run, String.mk nick)
    | _ => none

structure RefInfo where
  ref : String
  nickname : Option String
  side : Side
deriving Repr, DecidableEq

def parsePokemonRef (raw : String) : RefInfo :=
  match parsePokemonRefAux raw with
  | none =>
    let r := jsTrim raw
    { ref := r, nickname := some (jsTrim raw), side := resolveSide r }
  | some (ref, nickname) =>
    { ref := ref, nickname := some nickname, side := resolveSide ref }

/-- Replacing the registry entry for ref in place (models mutation of the
object held in the Map). -/
def setPokemon (ctx : ParseContext) (ref : String) (mon : PokemonState) : ParseContext :=
  { ctx with pokemon := ctx.pokemon.map (fun p => if p.1 == ref then (ref, mon) else p) }

def getOrCreatePokemon (ctx : ParseContext) (ref : String) (side : Side)
    (species : String := "Unknown") : ParseContext × PokemonState :=
  match lookupPokemon ctx ref with
  | some existing => (ctx, existing)
  | none =>
    let iconId := jsOr2 (some (toIconIdS species)) DEFAULT_ICON_ID
    let created : PokemonState := { ref := ref, side := side, species := species, iconId := iconId }
    ({ ctx with pokemon := ctx.pokemon ++ [(ref, created)] }, created)

/-- addSpecies. side reaches this as the raw second field of a poke record:
a value other than the two side keys makes the teams-object index undefined
and the push on it throw; species reaches it undefined from a short
formechange record and the trim on it throws. -/
def addSpecies (ctx : ParseContext) (side : Option String) (species : Option String) :
    Except JsError ParseContext := do
  let sp ← require species
  let normalized := jsTrim sp
  let id := toIdS normalized
  if id = "" then return ctx
  let set := if side == some "p1" then ctx.teams.p1Set else ctx.teams.p2Set
  if set.contains normalized then return ctx
  match side with
  | some "p1" =>
    return { ctx with teams := { ctx.teams with
      p1Set := ctx.teams.p1Set ++ [normalized], p1 := ctx.teams.p1 ++ [normalized] } }
  | some "p2" =>
    return { ctx with teams := { ctx.teams with
      p2Set := ctx.teams.p2Set ++ [normalized], p2 := ctx.teams.p2 ++ [normalized] } }
  | _ => .error .typeError

/-- updatePokemonSpecies. A species of undefined (short formechange record)
is stored before addSpecies throws on it; the stored value is unobservable
because the whole parse aborts, so the embedding stores the creation default. -/
def updatePokemonSpecies (ctx : ParseContext) (ref : String) (species : Option String) :
    Except JsError ParseContext := do
  let side := resolveSide ref
  let (ctx, mon) := getOrCreatePokemon ctx ref side (species.getD "Unknown")
  let mon := { mon with
    species := species.getD "Unknown"
    iconId := jsOr2 (some (toIconId species)) mon.iconId }
  let ctx := setPokemon ctx ref mon
  addSpecies ctx (some (sideKey side)) species

def setCurrentAction (ctx : ParseContext) (action : ActionSummary) : ParseContext :=
  let n := (getCurrentTurn ctx).actions.length
  let ctx := mapCurrentTurn (fun t => { t with actions := t.actions ++ [action] }) ctx
  { ctx with currentAction := some n }

def ensureCurrentTurn (ctx : ParseContext) (turnNumber : JsNum) : ParseContext :=
  if JsNum.eqb (getCurrentTurn ctx).turn turnNumber then ctx
  else
    let ctx := flushPendingFieldEnds ctx
    let newTurn := createTurn turnNumber
    { ctx with
      turns := ctx.turns ++ [newTurn]
      currentTurnIdx := ctx.turns.length
      currentAction := none
      faintedThisTurn := []
      recentMoves := []
      pendingProtects := [] }

def detailWithIcon (ctx : ParseContext) (ref : String) (body : String)
    (htmlBody : Option String := none) : ParseContext × DualFormat :=
  let side := resolveSide ref
  let (ctx, mon) := getOrCreatePokemon ctx ref side
  let label := getPokemonDisplayName ctx ref
  let icon := iconHTML (some mon.iconId) label
  let html := icon ++ htmlBody.getD body
  let text := jsTrim (label ++ " " ++ body)
  (ctx, makeDetail text (some (jsTrim html)))

def addNoteAction (ctx : ParseContext) (ref : Option String) (note : String) : ParseContext :=
  let side := match ref with
    | some r => resolveSide r
    | none => .p1
  let actor := ref.bind (lookupPokemon ctx)
  let action : ActionSummary := {
    type := .note
    actorRef := ref
    actorName := jsOrOptS (actor.bind (·.nickname)) (actor.map (·.species))
    actorSpecies := actor.map (·.species)
    actorIconId := actor.map (·.iconId)
    side := some side
    verb := note }
  setCurrentAction ctx action

def combineDetails (details : List DualFormat) : Option DualFormat :=
  if details.isEmpty then none
  else
    let text := joinSep "; " ((details.map (·.text)).filter (fun s => s ≠ ""))
    let html := joinSep "; " ((details.map (fun d => jsOr2 (some d.html) d.text)).filter (fun s => s ≠ ""))
    if text = "" && html = "" then none
    else some { text := if text ≠ "" then text else html, html := if html ≠ "" then html else text }

/-- The word-character test of the regex class backslash-w. -/
def isWordChar (c : Char) : Bool := c.isAlpha || c.isDigit || c == '_'

/-- One attempted match of the unanchored stat-delta pattern (sign, digits,
whitespace, word character) at the head of the list. -/
def boostPatAt (l : List Char) : Bool :=
  match l with
  | c :: rest =>
    (c == '+' || c == '-') &&
      (let ds := rest.takeWhile Char.isDigit
       !ds.isEmpty &&
         (let r2 := rest.drop ds.length
          let ws := r2.takeWhile isWs
          !ws.isEmpty &&
            match r2.drop ws.length with
            | w :: _ => isWordChar w
            | [] => false))
  | [] => false

def boostPatternSearch (l : List Char) : Bool :=
  match l with
  | [] => false
  | _ :: rest => boostPatAt l || boostPatternSearch rest

/-- The stat-delta test applied to a detail: the source always tests the
trimmed text of the entry. -/
def isBoostDetail (d : DualFormat) : Bool :=
  boostPatternSearch (jsTrimL d.text.data)

/-- The comma-consolidation of bare stat-delta details inside the
forced-switch merge branch of the switch handler. -/
def consolidateBoostDetails (details : List DualFormat) : List DualFormat :=
  let boostDetails := details.filter isBoostDetail
  let otherDetails := details.filter (fun d => !isBoostDetail d)
  if boostDetails.length > 0 then
    let boostText := joinSep ", " (boostDetails.map (·.text))
    let boostHtml := joinSep ", " (boostDetails.map (fun d => jsOr2 (some d.html) d.text))
    makeDetail boostText (some boostHtml) :: otherDetails
  else details

/-- Key order of a JS Map built by grouping: first-occurrence order. -/
def dedupKeepFirst (l : List String) : List String :=
  l.foldl (fun acc x => if acc.contains x then acc else acc ++ [x]) []

def finalizePendingAbilityBoost (ctx : ParseContext) : ParseContext :=
  match ctx.pendingAbilityBoost with
  | none => ctx
  | some pab =>
    let mon := lookupPokemon ctx pab.ref
    let pokemonName := jsOr2 (mon.bind (·.nickname)) (jsOr2 (mon.map (·.species)) pab.ref)
    let possessive := if strEndsWith pokemonName "s" then "'" else "'s"
    let abilityText := pokemonName ++ possessive ++ " " ++ jsShow pab.ability
    let abilityHtml := iconHTML (mon.map (·.iconId)) pokemonName ++ pokemonName ++ possessive ++ " " ++ jsShow pab.ability
    let headParts := [makeDetail abilityText (some abilityHtml)]
    let targets := dedupKeepFirst (pab.boosts.map (·.ref))
    let step := fun (acc : ParseContext × List DualFormat) (targetRef : String) =>
      let targetBoosts := pab.boosts.filter (fun b => b.ref == targetRef)
      let boostTexts := targetBoosts.map (fun b => b.direction ++ b.amount.toDisplay ++ " " ++ b.stat)
      let combinedBoostText := joinSep ", " boostTexts
      let (c, d) := detailWithIcon acc.1 targetRef combinedBoostText
      (c, acc.2 ++ [d])
    let (ctx, targetParts) := targets.foldl step (ctx, [])
    let ctx :=
      match combineDetails (headParts ++ targetParts) with
      | none => ctx
      | some combined =>
        if ctx.leadPhase ||
            (JsNum.eqb (getCurrentTurn ctx).turn (.int 1) && (getCurrentTurn ctx).actions.length == 0) then
          pushHeaderEvent ctx combined.text
        else
          appendDetailEntry ctx combined
    { ctx with pendingAbilityBoost := none }

/-- The unanchored regex match "literal, optional whitespace, capture rest",
then trim, as the -fieldstart and -weather handlers use on from-ability and
of annotations; the empty string stands for no match, as in the source where
a failed match also yields the empty string. -/
def matchAfterTrim (s lit : String) : String :=
  jsTrim ((restAfter s lit).getD "")

/-- The position key match of caret p12ab in the switch handler. -/
def updateActivePosition (ctx : ParseContext) (ref : String) : ParseContext :=
  match ref.data with
  | 'p' :: '1' :: 'a' :: _ => { ctx with activePositions := { ctx.activePositions with p1a := some ref } }
  | 'p' :: '1' :: 'b' :: _ => { ctx with activePositions := { ctx.activePositions with p1b := some ref } }
  | 'p' :: '2' :: 'a' :: _ => { ctx with activePositions := { ctx.activePositions with p2a := some ref } }
  | 'p' :: '2' :: 'b' :: _ => { ctx with activePositions := { ctx.activePositions with p2b := some ref } }
  | _ => ctx

/-- The target-name patch of the -activate Protect branch and the -immune
handler: append the marker to the frozen display name once. -/
def patchTargetName (marker : String) (ref : String) (a : ActionSummary) : ActionSummary :=
  match a.targetRefs with
  | none => a
  | some trs =>
    match trs.indexOf? ref with
    | none => a
    | some idx =>
      match a.targetNames with
      | none => a
      | some tns =>
        match tns.get? idx with
        | none => a
        | some currentName =>
          if currentName ≠ "" && !containsSub currentName marker then
            { a with targetNames := some (tns.set idx (currentName ++ " " ++ marker)) }
          else a

/- ===== src/lib/parser.ts : the event dispatcher, one function per case ===== -/

def handlePlayer (ctx : ParseContext) (parts : List String) : ParseContext :=
  let side := parts.get? 1
  let name := parts.get? 2
  if truthy name then
    let n := name.getD ""
    if side == some "p1" then { ctx with players := { ctx.players with p1 := n } }
    else if side == some "p2" then { ctx with players := { ctx.players with p2 := n } }
    else ctx
  else ctx

def handleFormat (ctx : ParseContext) (parts : List String) : ParseContext :=
  if !truthy ctx.formatName then { ctx with formatName := parts.get? 1 } else ctx

def handleWin (ctx : ParseContext) (parts : List String) : ParseContext :=
  { ctx with winner := parts.get? 1 }

def handleLoss (ctx : ParseContext) (parts : List String) : ParseContext :=
  let loserToken := (parts.get? 1).getD ""
  { ctx with loser := some (String.mk (loserToken.data.dropWhile (fun c => !(c.isAlpha || c.isDigit)))) }

def handleTurn (ctx : ParseContext) (parts : List String) : ParseContext :=
  let ctx := finalizePendingAbilityBoost ctx
  let turnNumber := jsNumber (parts.get? 1)
  let ctx := { ctx with leadPhase := false }
  let ctx := ensureCurrentTurn ctx turnNumber
  { ctx with currentAction := none }

def handlePoke (ctx : ParseContext) (parts : List String) : Except JsError ParseContext := do
  let side := parts.get? 1
  let detail ← require (parts.get? 2)
  let species := (jsSplitChar ',' detail).headD ""
  addSpecies ctx side (some species)

def handleSwitch (ctx : ParseContext) (parts : List String) : Except JsError ParseContext := do
  let ctx := finalizePendingAbilityBoost ctx
  let raw ← require (parts.get? 1)
  let ri := parsePokemonRef raw
  let details := (parts.get? 2).getD ""
  let species := (jsSplitChar ',' details).headD ""
  let previousMon := lookupPokemon ctx ri.ref
  let previousIconId := previousMon.map (·.iconId)
  let previousName := previousMon.map (fun m => jsOr2 m.nickname m.species)
  let ctx ← updatePokemonSpecies ctx ri.ref (some species)
  match lookupPokemon ctx ri.ref with
  | none => pure ctx
  | some mon0 =>
    let mon1 := if truthy ri.nickname then { mon0 with nickname := ri.nickname } else mon0
    let hpRaw := (parts.get? 3).getD ""
    let hpStatus := parseHPStatus hpRaw
    let mon := { mon1 with
      lastDisplayHP := some (formatHPStatus hpStatus)
      status := hpStatus.status
      fainted := some hpStatus.fainted }
    let ctx := setPokemon ctx ri.ref mon
    let ctx := updateActivePosition ctx ri.ref
    let switchExtras := parseExtras parts 4
    let forcedByMove := switchExtras.find? fun extra =>
      let lowerExtra := jsToLower extra
      !containsSub lowerExtra "ability" && !containsSub lowerExtra "item" && extra.length > 0
    let mergeable :=
      forcedByMove.isSome &&
        (match getCurrentAction ctx with
         | some a => a.type == .move && a.actorRef == some ri.ref
         | none => false)
    if mergeable then
      let ctx := mapCurrentAction (fun a => { a with details := consolidateBoostDetails a.details }) ctx
      let displayName := getPokemonDisplayName ctx ri.ref
      let switchText := jsOr2 previousName "Previous" ++ " -> " ++ displayName
      let previousIcon := if truthy previousIconId then iconHTML previousIconId (jsOr2 previousName "Previous") else ""
      let currentIcon := if mon.iconId ≠ "" then iconHTML (some mon.iconId) displayName else ""
      let switchHtml :=
        if previousIcon ≠ "" && currentIcon ≠ "" then previousIcon ++ " -> " ++ currentIcon
        else if currentIcon ≠ "" then currentIcon
        else switchText
      pure (mapCurrentAction (fun a => { a with details := a.details ++ [makeDetail switchText (some switchHtml)] }) ctx)
    else if ctx.leadPhase then
      let label := jsOr2 mon.nickname (jsOr2 (some mon.species) ri.ref)
      let entry : LeadEntry := { side := ri.side, html := iconHTML (some mon.iconId) label, text := label }
      let ctx := mapCurrentTurn (fun t => { t with leadEntries := t.leadEntries ++ [entry] }) ctx
      pure { ctx with currentAction := none }
    else
      let switchDetails := if hpStatus.fainted then [makeDetail "fainted on entry"] else []
      let isReplacement := ctx.faintedThisTurn.length > 0
      let verb := if isReplacement then "enters" else "switches"
      let displayName := getPokemonDisplayName ctx ri.ref
      let action : ActionSummary := {
        type := .switch
        actorRef := some ri.ref
        actorName := some displayName
        actorSpecies := some mon.species
        actorIconId := some mon.iconId
        side := some ri.side
        verb := verb
        details := switchDetails
        fromIconId := if isReplacement then none else previousIconId
        fromName := if isReplacement then none else previousName }
      pure (setCurrentAction ctx action)

def handleMove (ctx : ParseContext) (parts : List String) : Except JsError ParseContext := do
  let ctx := finalizePendingAbilityBoost ctx
  let raw ← require (parts.get? 1)
  let ri := parsePokemonRef raw
  let moveRaw ← require (parts.get? 2)
  let move := prettifyMove moveRaw
  let targetRaw := parts.get? 3
  let target : Option (String × String) :=
    if truthy targetRaw then
      let ti := parsePokemonRef (targetRaw.getD "")
      let targetMon := lookupPokemon ctx ti.ref
      some (ti.ref, jsOr2 (targetMon.map (·.species)) (jsOr2 ti.nickname ti.ref))
    else none
  let targetRefs := target.map (fun t => [t.1])
  let targetSpecies := target.map (fun t => [t.2])
  let (ctx, actor0) := getOrCreatePokemon ctx ri.ref ri.side
  let actor := if truthy ri.nickname then { actor0 with nickname := ri.nickname } else actor0
  let ctx := if truthy ri.nickname then setPokemon ctx ri.ref actor else ctx
  let ctx := { ctx with recentMoves := ctx.recentMoves ++ [(ri.ref, move)] }
  let actorDisplayName := getPokemonDisplayName ctx ri.ref
  let targetDisplayNames := targetRefs.map (fun l => l.map (getPokemonDisplayName ctx))
  let extras := parseExtras parts 4
  let action : ActionSummary := {
    type := .move
    actorRef := some ri.ref
    actorName := some actorDisplayName
    actorSpecies := some actor.species
    actorIconId := some actor.iconId
    side := some ri.side
    verb := move
    targetRefs := targetRefs
    targetNames := targetDisplayNames
    targetSpecies := targetSpecies
    details := if extras.length > 0 then [makeDetail (joinSep "; " extras)] else [] }
  pure (setCurrentAction ctx action)

def handleCant (ctx : ParseContext) (parts : List String) : Except JsError ParseContext := do
  let raw ← require (parts.get? 1)
  let ri := parsePokemonRef raw
  let reason := parts.get? 2
  let move := match parts.get? 3 with
    | some m => if m ≠ "" then " while using " ++ prettifyMove m else ""
    | none => ""
  pure (addNoteAction ctx (some ri.ref) ("can't move (" ++ jsShow reason ++ move ++ ")"))

def handleDamage (ctx : ParseContext) (parts : List String) : Except JsError ParseContext := do
  let raw ← require (parts.get? 1)
  let ri := parsePokemonRef raw
  let (ctx, mon0) := getOrCreatePokemon ctx ri.ref (resolveSide ri.ref)
  let hpRaw ← require (parts.get? 2)
  let hpStatus := parseHPStatus hpRaw
  let previous := mon0.lastDisplayHP
  let formatted := formatHPStatus hpStatus
  let mon := { mon0 with lastDisplayHP := some formatted, status := hpStatus.status, fainted := some hpStatus.fainted }
  let ctx := setPokemon ctx ri.ref mon
  let extras := (parseExtras parts 3).filter (fun s => s ≠ "")
  let isEOT := extras.any isEndOfTurnSource
  let ctx := if isEOT && ctx.pendingFieldEnds.length > 0 then flushPendingFieldEnds ctx else ctx
  let change := if truthy previous && previous ≠ some formatted then previous.getD "" ++ " -> " ++ formatted else formatted
  let segments := [change] ++ (if extras.length > 0 then ["(" ++ joinSep "; " extras ++ ")"] else [])
  let body := joinSep " " segments
  let (ctx, d) := detailWithIcon ctx ri.ref body
  pure (appendDetailEntry ctx d isEOT)

def handleBoost (ctx : ParseContext) (tag : String) (parts : List String) : Except JsError ParseContext := do
  let raw ← require (parts.get? 1)
  let ri := parsePokemonRef raw
  let statRaw ← require (parts.get? 2)
  let stat := jsToUpper statRaw
  let amount := jsNumber (parts.get? 3)
  let direction := if tag = "-boost" then "+" else "-"
  let extras := (parseExtras parts 4).filter (fun s => s ≠ "")
  if ctx.pendingAbilityBoost.isSome && extras.isEmpty then
    pure { ctx with pendingAbilityBoost := ctx.pendingAbilityBoost.map fun pab =>
      { pab with boosts := pab.boosts ++ [{ ref := ri.ref, stat := stat, amount := amount, direction := direction }] } }
  else
    let isSelfBuff :=
      (match getCurrentAction ctx with
       | some a =>
         a.type == .move && a.actorRef == some ri.ref &&
           (match a.targetNames with
            | none => true
            | some tn => tn.isEmpty ||
                (tn.length == 1 && a.actorName == tn.get? 0))
       | none => false) && extras.isEmpty
    if isSelfBuff then
      pure (mapCurrentAction (fun a =>
        { a with verb := a.verb ++ ", " ++ direction ++ amount.toDisplay ++ " " ++ stat }) ctx)
    else
      let detail := direction ++ amount.toDisplay ++ " " ++ stat ++
        (if extras.length > 0 then " (" ++ joinSep "; " extras ++ ")" else "")
      let (ctx, d) := detailWithIcon ctx ri.ref detail
      pure (appendDetailEntry ctx d)

def handleStatus (ctx : ParseContext) (parts : List String) : Except JsError ParseContext := do
  let raw ← require (parts.get? 1)
  let ri := parsePokemonRef raw
  let statusRaw ← require (parts.get? 2)
  let status := jsToUpper statusRaw
  let extras := parseExtras parts 3
  let detail := status ++ formatExtras extras
  let ctx := match lookupPokemon ctx ri.ref with
    | some mon => setPokemon ctx ri.ref { mon with status := some status }
    | none => ctx
  let isEOT := extras.any isEndOfTurnSource
  let (ctx, d) := detailWithIcon ctx ri.ref detail
  pure (appendDetailEntry ctx d isEOT)

def handleCureStatus (ctx : ParseContext) (parts : List String) : Except JsError ParseContext := do
  let raw ← require (parts.get? 1)
  let ri := parsePokemonRef raw
  let statusRaw ← require (parts.get? 2)
  let status := jsToUpper statusRaw
  let (ctx, d) := detailWithIcon ctx ri.ref ("Cured " ++ status)
  let ctx := appendDetailEntry ctx d
  let ctx := match lookupPokemon ctx ri.ref with
    | some mon => setPokemon ctx ri.ref { mon with status := none }
    | none => ctx
  pure ctx

def handleAbility (ctx : ParseContext) (parts : List String) : Except JsError ParseContext := do
  let raw ← require (parts.get? 1)
  let ri := parsePokemonRef raw
  let ability := parts.get? 2
  let fourthParam := parts.get? 3
  if fourthParam == some "boost" then
    let ctx := finalizePendingAbilityBoost ctx
    pure { ctx with pendingAbilityBoost := some { ref := ri.ref, ability := ability, boosts := [] } }
  else
    let mon := lookupPokemon ctx ri.ref
    let pokemonName := jsOr2 (mon.bind (·.nickname)) (jsOr2 (mon.map (·.species)) ri.ref)
    let extras := (parseExtras parts 3).filter (fun s => s ≠ "")
    let possessive := if strEndsWith pokemonName "s" then pokemonName ++ "'" else pokemonName ++ "'s"
    let detail :=
      if extras.length > 0 then possessive ++ " " ++ jsShow ability ++ " (" ++ joinSep "; " extras ++ ")"
      else possessive ++ " " ++ jsShow ability
    if ctx.leadPhase ||
        (JsNum.eqb (getCurrentTurn ctx).turn (.int 1) && (getCurrentTurn ctx).actions.length == 0) then
      pure (pushHeaderEvent ctx detail)
    else
      pure (appendDetailEntry ctx (makeDetail detail))

def handleItem (ctx : ParseContext) (label : String) (parts : List String) : Except JsError ParseContext := do
  let raw ← require (parts.get? 1)
  let ri := parsePokemonRef raw
  let item := parts.get? 2
  let extras := parseExtras parts 3
  let (ctx, d) := detailWithIcon ctx ri.ref (label ++ jsShow item ++ formatExtras extras)
  pure (appendDetailEntry ctx d)

/-- The ability-sourced merge block shared verbatim by the -fieldstart and
-weather handlers: if the open action is a switch by the named pokemon the
announcement is merged into its verb, else it becomes a header line.
`tail` is the "{field} starts" / "{weather} starts" text. -/
def abilityAnnounceMerge (ctx : ParseContext) (ability refRaw tail : String) : ParseContext :=
  let ri := parsePokemonRef refRaw
  let mon := lookupPokemon ctx ri.ref
  let pokemonName := jsOr2 (mon.bind (·.nickname)) (jsOr2 (mon.map (·.species)) refRaw)
  let possessive := if strEndsWith pokemonName "s" then pokemonName ++ "'" else pokemonName ++ "'s"
  let merged : Bool :=
    match getCurrentAction ctx with
    | some a => a.type == ActionType.switch && a.actorRef == some ri.ref
    | none => false
  if merged then
    mapCurrentAction (fun a => { a with verb := a.verb ++ "; " ++ possessive ++ " " ++ ability ++ "; " ++ tail }) ctx
  else
    pushHeaderEvent ctx (possessive ++ " " ++ ability ++ "; " ++ tail)

/-- The shared tail of the -fieldstart handler: move-implied suppression,
else a turn-header line. -/
def fieldStartDefault (ctx : ParseContext) (fieldName : String) : ParseContext :=
  let fieldId := toIdS fieldName
  let impliedByMove := ctx.recentMoves.any (fun m => toIdS m.2 == fieldId)
  if impliedByMove then ctx
  else pushHeaderEvent ctx (fieldName ++ " starts")

def handleFieldStart (ctx : ParseContext) (parts : List String) : Except JsError ParseContext := do
  let source ← require (parts.get? 1)
  let fieldName := normalizeFieldName source
  let p2 := parts.get? 2
  let p3 := parts.get? 3
  if truthy p2 && containsSub (p2.getD "") "[from] ability:" then
    let ability := matchAfterTrim (p2.getD "") "ability:"
    if ability ≠ "" && truthy p3 && containsSub (p3.getD "") "[of]" then
      let refRaw := matchAfterTrim (p3.getD "") "[of]"
      if refRaw ≠ "" then
        pure (abilityAnnounceMerge ctx ability refRaw (fieldName ++ " starts"))
      else pure (fieldStartDefault ctx fieldName)
    else pure (fieldStartDefault ctx fieldName)
  else pure (fieldStartDefault ctx fieldName)

def handleFieldEnd (ctx : ParseContext) (parts : List String) : Except JsError ParseContext := do
  let source ← require (parts.get? 1)
  pure { ctx with pendingFieldEnds := ctx.pendingFieldEnds ++ [normalizeFieldName source] }

def handleWeather (ctx : ParseContext) (parts : List String) : Except JsError ParseContext := do
  let weather ← require (parts.get? 1)
  let p2 := parts.get? 2
  let isUpkeep := truthy p2 && containsSub (p2.getD "") "upkeep"
  let normalizedWeather := normalizeWeatherName weather
  if weather = "none" then
    let ctx :=
      if truthy ctx.currentWeather then
        pushHeaderEvent ctx (normalizeWeatherName (ctx.currentWeather.getD "") ++ " ends")
      else ctx
    pure { ctx with currentWeather := none }
  else if !isUpkeep then
    if ctx.currentWeather != some weather then
      let p3 := parts.get? 3
      let fromAbility : Option (String × String) :=
        if truthy p2 && containsSub (p2.getD "") "[from] ability:" then
          let ability := matchAfterTrim (p2.getD "") "ability:"
          if ability ≠ "" && truthy p3 && containsSub (p3.getD "") "[of]" then
            let refRaw := matchAfterTrim (p3.getD "") "[of]"
            if refRaw ≠ "" then some (ability, refRaw) else none
          else none
        else none
      let ctx :=
        match fromAbility with
        | none => pushHeaderEvent ctx (normalizedWeather ++ " starts")
        | some (ability, refRaw) => abilityAnnounceMerge ctx ability refRaw (normalizedWeather ++ " starts")
      pure { ctx with currentWeather := some weather }
    else pure ctx
  else pure ctx

def handleSideStart (ctx : ParseContext) (parts : List String) : Except JsError ParseContext := do
  let sideRef ← resolveSideE (parts.get? 1)
  let conditionId := toId (parts.get? 2)
  match sideRef with
  | .p1 => pure { ctx with sideConditions := { ctx.sideConditions with p1 := jsSetAdd ctx.sideConditions.p1 conditionId } }
  | .p2 => pure { ctx with sideConditions := { ctx.sideConditions with p2 := jsSetAdd ctx.sideConditions.p2 conditionId } }

def handleSideEnd (ctx : ParseContext) (parts : List String) : Except JsError ParseContext := do
  let sideRef ← resolveSideE (parts.get? 1)
  let condition := parts.get? 2
  let conditionId := toId condition
  let conds := match sideRef with
    | .p1 => ctx.sideConditions.p1
    | .p2 => ctx.sideConditions.p2
  if conds.contains conditionId then
    let ctx := pushHeaderEvent ctx ("Side condition ended: " ++ sideKey sideRef ++ " -> " ++ jsShow condition)
    match sideRef with
    | .p1 => pure { ctx with sideConditions := { ctx.sideConditions with p1 := ctx.sideConditions.p1.filter (fun c => c ≠ conditionId) } }
    | .p2 => pure { ctx with sideConditions := { ctx.sideConditions with p2 := ctx.sideConditions.p2.filter (fun c => c ≠ conditionId) } }
  else pure ctx

def handleTerrain (ctx : ParseContext) (parts : List String) : ParseContext :=
  pushHeaderEvent ctx ("Terrain: " ++ jsShow (parts.get? 1))

def handleMessage (ctx : ParseContext) (parts : List String) : ParseContext :=
  let message := joinSep " " (parts.drop 1)
  if strEndsWith (jsToLower message) "forfeited." then
    let base := message.data.take (message.data.length - 10)
    let forfeiter := String.mk ((dropWs base.reverse).reverse)
    let ctx := { ctx with resultNote := some "Forfeit" }
    if !truthy ctx.loser then { ctx with loser := some forfeiter } else ctx
  else if message ≠ "" && !containsSub (jsToLower message) "battle timer is on" then
    appendDetailStr ctx message
  else ctx

def handleSingleTurn (ctx : ParseContext) (parts : List String) : Except JsError ParseContext := do
  let raw ← require (parts.get? 1)
  let ri := parsePokemonRef raw
  let effect ← require (parts.get? 2)
  let isProtect := containsSub (toIdS effect) "protect" || containsSub (jsToLower effect) "protect"
  let ctx := if isProtect then { ctx with pendingProtects := jsSetAdd ctx.pendingProtects ri.ref } else ctx
  let normalizedEffect := dropMoveColon effect
  let isSameAsCurrentMove :=
    match getCurrentAction ctx with
    | some a => a.type == .move && toIdS normalizedEffect == toIdS a.verb
    | none => false
  if !isSameAsCurrentMove then
    let (ctx, d) := detailWithIcon ctx ri.ref effect
    pure (appendDetailEntry ctx d)
  else pure ctx

def handleActivate (ctx : ParseContext) (parts : List String) : Except JsError ParseContext := do
  let raw ← require (parts.get? 1)
  let ri := parsePokemonRef raw
  let effect ← require (parts.get? 2)
  if containsSub (toIdS effect) "protect" || containsSub (jsToLower effect) "protect" then
    pure (mapCurrentAction (patchTargetName "(Protect)" ri.ref) ctx)
  else
    let extras := parseExtras parts 3
    let body := "Activates " ++ effect ++ formatExtras extras
    let (ctx, d) := detailWithIcon ctx ri.ref body
    pure (appendDetailEntry ctx d)

def handleFail (ctx : ParseContext) (parts : List String) : Except JsError ParseContext := do
  let raw ← require (parts.get? 1)
  let ri := parsePokemonRef raw
  let reason := joinSep "; " (parseExtras parts 2)
  let body := "Fails" ++ (if reason ≠ "" then " (" ++ reason ++ ")" else "")
  let (ctx, d) := detailWithIcon ctx ri.ref body
  pure (appendDetailEntry ctx d)

def handleMiss (ctx : ParseContext) (parts : List String) : Except JsError ParseContext := do
  let raw ← require (parts.get? 1)
  let ri := parsePokemonRef raw
  let targetInfo := if truthy (parts.get? 2) then some (parsePokemonRef ((parts.get? 2).getD "")) else none
  let targetName := jsOr2 (targetInfo.bind (·.nickname))
    (jsOr2 (targetInfo.map (·.ref)) (jsOr2 (parts.get? 2) ""))
  let body := "Misses" ++ (if targetName ≠ "" then " " ++ targetName else "")
  let (ctx, d) := detailWithIcon ctx ri.ref body
  pure (appendDetailEntry ctx d)

def handleImmune (ctx : ParseContext) (parts : List String) : Except JsError ParseContext := do
  let raw ← require (parts.get? 1)
  let ri := parsePokemonRef raw
  pure (mapCurrentAction (patchTargetName "(immune)" ri.ref) ctx)

def handleFaint (ctx : ParseContext) (parts : List String) : Except JsError ParseContext := do
  let raw ← require (parts.get? 1)
  let ri := parsePokemonRef raw
  match lookupPokemon ctx ri.ref with
  | some mon =>
    let ctx := setPokemon ctx ri.ref { mon with fainted := some true }
    pure { ctx with faintedThisTurn := jsSetAdd ctx.faintedThisTurn ri.ref }
  | none => pure ctx

def handleTerastallize (ctx : ParseContext) (parts : List String) : Except JsError ParseContext := do
  let raw ← require (parts.get? 1)
  let ri := parsePokemonRef raw
  let type := parts.get? 2
  let mon := lookupPokemon ctx ri.ref
  let name := jsOr2 (mon.bind (·.nickname)) (jsOr2 (mon.map (·.species)) raw)
  pure (pushHeaderEvent ctx ("Terastallize " ++ name ++ " → " ++ jsShow type))

def handleFormeChange (ctx : ParseContext) (parts : List String) : Except JsError ParseContext := do
  let raw ← require (parts.get? 1)
  let ri := parsePokemonRef raw
  let species := parts.get? 2
  updatePokemonSpecies ctx ri.ref species

/-- One record of parseLog's switch statement, dispatched on the first field. -/
def processParts (ctx : ParseContext) (parts : List String) : Except JsError ParseContext :=
  let tag := parts.headD ""
  match tag with
  | "player" => pure (handlePlayer ctx parts)
  | "gen" => pure (handleFormat ctx parts)
  | "tier" => pure (handleFormat ctx parts)
  | "format" => pure (handleFormat ctx parts)
  | "win" => pure (handleWin ctx parts)
  | "l" => pure (handleLoss ctx parts)
  | "turn" => pure (handleTurn ctx parts)
  | "poke" => handlePoke ctx parts
  | "switch" => handleSwitch ctx parts
  | "drag" => handleSwitch ctx parts
  | "replace" => handleSwitch ctx parts
  | "move" => handleMove ctx parts
  | "cant" => handleCant ctx parts
  | "-damage" => handleDamage ctx parts
  | "-heal" => handleDamage ctx parts
  | "-boost" => handleBoost ctx "-boost" parts
  | "-unboost" => handleBoost ctx "-unboost" parts
  | "-status" => handleStatus ctx parts
  | "-curestatus" => handleCureStatus ctx parts
  | "-ability" => handleAbility ctx parts
  | "-item" => handleItem ctx "Item gained: " parts
  | "-enditem" => handleItem ctx "Item lost: " parts
  | "-fieldstart" => handleFieldStart ctx parts
  | "-fieldend" => handleFieldEnd ctx parts
  | "-weather" => handleWeather ctx parts
  | "-sidestart" => handleSideStart ctx parts
  | "-sideend" => handleSideEnd ctx parts
  | "-terrain" => pure (handleTerrain ctx parts)
  | "-message" => pure (handleMessage ctx parts)
  | "-singleturn" => handleSingleTurn ctx parts
  | "-activate" => handleActivate ctx parts
  | "-fail" => handleFail ctx parts
  | "-miss" => handleMiss ctx parts
  | "-immune" => handleImmune ctx parts
  | "faint" => handleFaint ctx parts
  | "-terastallize" => handleTerastallize ctx parts
  | "detailschange" => handleFormeChange ctx parts
  | "formechange" => handleFormeChange ctx parts
  | _ => pure ctx

/-- One raw line of parseLog's loop: strip one leading pipe, skip empty
lines, split on pipes and dispatch. -/
def processLine (ctx : ParseContext) (rawLine : String) : Except JsError ParseContext :=
  let line := if strStartsWith rawLine "|" then String.mk (rawLine.data.drop 1) else rawLine
  if line = "" then pure ctx
  else processParts ctx (jsSplitChar '|' line)

/-- parseLog: the fold of processLine over the newline-split log. -/
def parseLogE (ctx : ParseContext) (log : String) : Except JsError ParseContext :=
  (jsSplitChar '\n' log).foldlM processLine ctx

/- ===== src/lib/parser.ts : rendering ===== -/

/-- The global whitespace-run collapse (regex replace with one space). -/
def squashWsAux (prevWs : Bool) : List Char → List Char
  | [] => []
  | c :: rest =>
    if isWs c then
      if prevWs then squashWsAux true rest else ' ' :: squashWsAux true rest
    else c :: squashWsAux false rest

def squashWs (s : String) : String := String.mk (squashWsAux false s.data)

def actionHeadline (_ctx : ParseContext) (action : ActionSummary) : DualFormat :=
  if action.type == ActionType.switch then
    let toText := jsOr2 action.actorName ""
    let currentIcon := if truthy action.actorIconId then iconHTML action.actorIconId toText else ""
    if strStartsWith action.verb "enters" then
      { html := jsTrim (currentIcon ++ action.verb), text := jsTrim (toText ++ " " ++ action.verb) }
    else
      let previousIcon := if truthy action.fromIconId then iconHTML action.fromIconId (jsOr2 action.fromName "Previous") else ""
      let htmlParts : List String :=
        (if previousIcon ≠ "" then [previousIcon] else []) ++
          (if currentIcon ≠ "" then
            (if previousIcon ≠ "" then ["-> " ++ currentIcon] else [currentIcon])
          else [])
      let extraInfo :=
        if action.verb ≠ "" && action.verb ≠ "switches" then
          let ps := jsSplitChar ';' action.verb
          if ps.length > 1 && jsTrim (ps.headD "") = "switches" then
            "; " ++ joinSep "; " ((ps.drop 1).map jsTrim)
          else ""
        else ""
      let joinedHtml := jsTrim (joinSep " " htmlParts)
      let html :=
        (if joinedHtml ≠ "" then joinedHtml
         else if currentIcon ≠ "" then currentIcon
         else if previousIcon ≠ "" then previousIcon
         else "Switch") ++ extraInfo
      let fromText := jsOr2 action.fromName (if truthy action.fromIconId then "Prev" else "")
      let text :=
        (if fromText ≠ "" && toText ≠ "" then fromText ++ " -> " ++ toText
         else if toText ≠ "" then toText
         else if fromText ≠ "" then fromText
         else "Switch") ++ extraInfo
      { html := html, text := text }
  else
    let actorName := jsOr2 action.actorName "?"
    let actorIcon := if truthy action.actorIconId then iconHTML action.actorIconId actorName else ""
    let isSelfTarget : Bool :=
      (match action.targetRefs with
       | none => true
       | some trs => trs.isEmpty) ||
      (match action.targetRefs with
       | some [t0] => action.actorRef == some t0
       | _ => false)
    let targetDisplayNames : List String :=
      if action.targetNames.isSome && !isSelfTarget then action.targetNames.getD [] else []
    let targetText := if targetDisplayNames.length > 0 then joinSep ", " targetDisplayNames else ""
    let targetIconHtml :=
      if (match action.targetSpecies with
          | some ts => ts.length > 0
          | none => false) && !isSelfTarget then
        joinSep " " ((action.targetSpecies.getD []).mapIdx fun idx species =>
          let displayName := jsOr2 (targetDisplayNames.get? idx)
            (jsOr2 (action.targetNames.bind (fun tn => tn.get? idx)) species)
          iconHTML (some (jsOr2 (some (toIconIdS species)) DEFAULT_ICON_ID)) displayName)
      else ""
    let htmlSegments : List String :=
      (if actorIcon ≠ "" then [actorIcon] else if actorName ≠ "" then [actorName] else []) ++
        [action.verb] ++
        (if targetIconHtml ≠ "" then ["-> " ++ targetIconHtml]
         else if targetText ≠ "" then ["-> " ++ targetText]
         else [])
    let textSegments : List String :=
      [jsTrim (actorName ++ " " ++ action.verb)] ++
        (if targetText ≠ "" then ["-> " ++ targetText] else [])
    { html := squashWs (joinSep " " htmlSegments), text := squashWs (joinSep " " textSegments) }

/-- The single-target test that picks the comma separator and turns on
target stripping in formatTurn. -/
def isSingleTargetAction (action : ActionSummary) : Bool :=
  action.type == ActionType.move &&
    (match action.targetNames with
     | some tn => tn.length == 1
     | none => false) &&
    !containsSub action.verb "spread"

/-- Matcher for the global removal of the target icon img tag: the literal
prefix (regex dots read as the literal characters they stand for in the
generated markup), then any run without a closing angle bracket, then one.
Fuel starts at the list length; every step consumes at least one character,
so the fuel never runs out before the list does. -/
def removeIconMatchesAux (pre : List Char) : Nat → List Char → List Char
  | _, [] => []
  | 0, l => l
  | fuel + 1, c :: rest =>
    if pre.isPrefixOf (c :: rest) then
      match ((c :: rest).drop pre.length).dropWhile (fun ch => ch != '>') with
      | '>' :: tail => removeIconMatchesAux pre fuel tail
      | _ => c :: removeIconMatchesAux pre fuel rest
    else c :: removeIconMatchesAux pre fuel rest

def stripIconPattern (targetIconId : String) (html : String) : String :=
  let pre := ("<img src=\"https://play.pokemonshowdown.com/sprites/gen5/" ++ targetIconId ++ ".png\"").data
  String.mk (removeIconMatchesAux pre html.data.length html.data)

/-- One attempted match of "name then mandatory whitespace" for the
target-name stripper; the name is matched literally (the source builds a
regex from the display name, which the generated names use literally). -/
def matchNameWs (name : List Char) (l : List Char) : Option (List Char) :=
  if name.isPrefixOf l then
    let after := l.drop name.length
    let ws := after.takeWhile isWs
    if ws.isEmpty then none else some (after.drop ws.length)
  else none

/-- The global replace of (start or delimiter-and-spaces) name whitespace
keeping the delimiter group. Fuel as in removeIconMatchesAux. -/
def stripNameAux (name : List Char) : Nat → Bool → List Char → List Char
  | _, _, [] => []
  | 0, _, l => l
  | fuel + 1, atStart, c :: rest =>
    match (if atStart then matchNameWs name (c :: rest) else none) with
    | some tail => stripNameAux name fuel false tail
    | none =>
      if c == ',' || c == ';' then
        let ws := rest.takeWhile isWs
        match matchNameWs name (rest.drop ws.length) with
        | some tail => c :: (ws ++ stripNameAux name fuel false tail)
        | none => c :: stripNameAux name fuel false rest
      else c :: stripNameAux name fuel false rest

def stripNamePattern (targetName : String) (text : String) : String :=
  String.mk (stripNameAux targetName.data text.data.length true text.data)

/-- Lines 470-501 of formatTurn: the combined details of one action, with
comma-joining when every detail is a bare stat delta, and target icon/name
stripping for single-target actions. -/
def actionDetailBody (action : ActionSummary) : Option DualFormat :=
  let isSingleTarget := isSingleTargetAction action
  let combined : Option DualFormat :=
    if isSingleTarget && action.details.length > 0 then
      if action.details.all isBoostDetail then
        some { text := joinSep ", " ((action.details.map (·.text)).filter (fun s => s ≠ ""))
               html := joinSep ", " ((action.details.map (fun d => jsOr2 (some d.html) d.text)).filter (fun s => s ≠ "")) }
      else combineDetails action.details
    else combineDetails action.details
  match combined with
  | none => none
  | some comb =>
    if isSingleTarget && action.details.length > 0 then
      let targetIconId : Option String :=
        match action.targetSpecies.bind (fun ts => ts.get? 0) with
        | some s0 => if s0 ≠ "" then some (toIconIdS s0) else none
        | none => none
      let targetName := jsOr2 (action.targetNames.bind (fun tn => tn.get? 0)) ""
      let html1 := if truthy targetIconId then jsTrim (stripIconPattern (targetIconId.getD "") comb.html) else comb.html
      let text1 := if targetName ≠ "" then jsTrim (stripNamePattern targetName comb.text) else comb.text
      some { html := html1, text := text1 }
    else some comb

structure RenderedLines where
  html : List String
  text : List String
deriving Repr, DecidableEq

/-- One rendered action line (headline, separator, detail body). -/
def renderActionLine (ctx : ParseContext) (action : ActionSummary) : DualFormat :=
  let headline := actionHeadline ctx action
  let separator := if action.details.length > 0 && isSingleTargetAction action then ", " else " — "
  match actionDetailBody action with
  | some combined =>
    { html := headline.html ++ separator ++ combined.html
      text := headline.text ++ separator ++ combined.text }
  | none => headline

def formatTurn (ctx : ParseContext) (turn : TurnSummary) : RenderedLines :=
  let isLead := JsNum.eqb turn.turn (.int 0)
  let turnLabel := if isLead then jsOr2 turn.label "Lead" else "T" ++ turn.turn.toDisplay
  let teraEvents := turn.headerEvents.filter (fun e => strStartsWith e "Terastallize")
  let otherEvents := turn.headerEvents.filter (fun e => !strStartsWith e "Terastallize")
  let headerSuffix := if otherEvents.length > 0 then " " ++ joinSep "; " otherEvents else ""
  let headLines : RenderedLines :=
    if isLead then
      let p1Entries := turn.leadEntries.filter (fun e => e.side == Side.p1)
      let p2Entries := turn.leadEntries.filter (fun e => e.side == Side.p2)
      let p1Html := joinSep "" (p1Entries.map (·.html))
      let p2Html := joinSep "" (p2Entries.map (·.html))
      let p1Text := joinSep ", " (p1Entries.map (·.text))
      let p2Text := joinSep ", " (p2Entries.map (·.text))
      let vsHtml :=
        if p1Html ≠ "" || p2Html ≠ "" then
          " " ++ p1Html ++ (if p2Html ≠ "" then "&nbsp;vs&nbsp;" ++ p2Html else "")
        else ""
      let textParts := (if p1Text ≠ "" then [p1Text] else []) ++ (if p2Text ≠ "" then [p2Text] else [])
      let vsText := if textParts.length > 0 then " " ++ joinSep " vs " textParts else ""
      { html := ["<div><strong>" ++ turnLabel ++ "</strong>" ++ vsHtml ++ headerSuffix ++ "</div>"]
        text := [jsTrim (turnLabel ++ vsText ++ headerSuffix)] }
    else
      { html := ["<div><strong>" ++ turnLabel ++ "</strong>" ++ headerSuffix ++ "</div>"]
        text := [jsTrim (turnLabel ++ headerSuffix)] }
  let teraLines : RenderedLines :=
    { html := teraEvents.map (fun e => "<div>&nbsp;&nbsp;" ++ e ++ "</div>")
      text := teraEvents.map (fun e => "  " ++ e) }
  let actionLines : RenderedLines :=
    { html := turn.actions.map (fun a => "<div>&nbsp;&nbsp;" ++ (renderActionLine ctx a).html ++ "</div>")
      text := turn.actions.map (fun a => "  " ++ (renderActionLine ctx a).text) }
  let endLines : RenderedLines :=
    if turn.endEvents.length > 0 then
      match combineDetails turn.endEvents with
      | some combined =>
        { html := ["<div>&nbsp;&nbsp;&nbsp;&nbsp;" ++ combined.html ++ "</div>"]
          text := ["    " ++ combined.text] }
      | none => { html := [], text := [] }
    else { html := [], text := [] }
  { html := headLines.html ++ teraLines.html ++ actionLines.html ++ endLines.html
    text := headLines.text ++ teraLines.text ++ actionLines.text ++ endLines.text }

def resolveLoser (ctx : ParseContext) : Option String :=
  if !truthy ctx.loser && !truthy ctx.winner then none
  else
    let p1Id := toIdS ctx.players.p1
    let p2Id := toIdS ctx.players.p2
    let loserId : Option String := if truthy ctx.loser then some (toId ctx.loser) else none
    if !truthy loserId && truthy ctx.winner then
      let winnerId := toId ctx.winner
      if winnerId == p1Id then some ctx.players.p2 else some ctx.players.p1
    else
      if loserId == some p1Id then some ctx.players.p1
      else if loserId == some p2Id then some ctx.players.p2
      else ctx.loser

def renderSummary (ctx : ParseContext) : DualFormat :=
  let p1 := ctx.players.p1
  let p2 := ctx.players.p2
  let p1Id := toIdS p1
  let p2Id := toIdS p2
  let winnerId : Option String := if truthy ctx.winner then some (toId ctx.winner) else none
  let loserId : Option String := if truthy ctx.loser then some (toId ctx.loser) else none
  let inferredLoserId : Option String :=
    if !truthy loserId && truthy winnerId then
      (if winnerId == some p1Id then some p2Id else some p1Id)
    else loserId
  let p1Tag := if winnerId == some p1Id then "[W] " else if inferredLoserId == some p1Id then "[L] " else ""
  let p2Tag := if winnerId == some p2Id then "[W] " else if inferredLoserId == some p2Id then "[L] " else ""
  let note := match ctx.resultNote with
    | some n => if n ≠ "" then " (" ++ n ++ ")" else ""
    | none => ""
  let formatSuffix := match ctx.formatName with
    | some f => if f ≠ "" then " — " ++ f else ""
    | none => ""
  let headerHtml := "<div><strong>" ++ p1Tag ++ p1 ++ "</strong> vs <strong>" ++ p2Tag ++ p2 ++ "</strong>" ++ formatSuffix ++ note ++ "</div>"
  let headerText := p1Tag ++ p1 ++ " vs " ++ p2Tag ++ p2 ++ formatSuffix ++ note
  let teamLine := fun (names : List String) =>
    if names.isEmpty then ({ html := "", text := "" } : DualFormat)
    else
      { html := joinSep "" (names.map fun species => iconHTML (some (jsOr2 (some (toIconIdS species)) DEFAULT_ICON_ID)) species)
        text := joinSep " · " names }
  let p1Team := teamLine ctx.teams.p1
  let p2Team := teamLine ctx.teams.p2
  let teamLines : RenderedLines :=
    if p1Team.html ≠ "" || p2Team.html ≠ "" then
      { html := ["<div>" ++ p1Team.html ++ "&nbsp;&nbsp;vs&nbsp;&nbsp;" ++ p2Team.html ++ "</div>"]
        text := [p1Team.text ++ " vs " ++ p2Team.text] }
    else { html := [], text := [] }
  let leadTurn := ctx.turns.find? (fun t => JsNum.eqb t.turn (.int 0))
  let leadLines : RenderedLines :=
    match leadTurn with
    | some lt =>
      if lt.leadEntries.length > 0 then
        let p1Leads := lt.leadEntries.filter (fun e => e.side == Side.p1)
        let p2Leads := lt.leadEntries.filter (fun e => e.side == Side.p2)
        let p1LeadsHtml := joinSep "" (p1Leads.map (·.html))
        let p2LeadsHtml := joinSep "" (p2Leads.map (·.html))
        let p1LeadsText := joinSep ", " (p1Leads.map (·.text))
        let p2LeadsText := joinSep ", " (p2Leads.map (·.text))
        let vs : RenderedLines :=
          if p1LeadsHtml ≠ "" || p2LeadsHtml ≠ "" then
            { html := ["<div>" ++ p1LeadsHtml ++ "&nbsp;&nbsp;vs&nbsp;&nbsp;" ++ p2LeadsHtml ++ "</div>"]
              text := [p1LeadsText ++ " vs " ++ p2LeadsText] }
          else { html := [], text := [] }
        { html := vs.html ++ lt.headerEvents.map (fun e => "<div>" ++ e ++ "</div>")
          text := vs.text ++ lt.headerEvents }
      else { html := [], text := [] }
    | none => { html := [], text := [] }
  let turnBlocks : RenderedLines :=
    ctx.turns.foldl
      (fun (acc : RenderedLines) t =>
        if JsNum.eqb t.turn (.int 0) then acc
        else if t.actions.isEmpty && t.headerEvents.isEmpty && t.leadEntries.isEmpty then acc
        else
          let formatted := formatTurn ctx t
          { html := acc.html ++ formatted.html, text := acc.text ++ formatted.text })
      { html := [], text := [] }
  let winnerLine : List String := if truthy ctx.winner then [ctx.winner.getD "" ++ " Wins"] else []
  let htmlParts := [headerHtml] ++ teamLines.html ++ leadLines.html ++ turnBlocks.html
  let textParts := [headerText] ++ teamLines.text ++ leadLines.text ++ turnBlocks.text ++ winnerLine
  { html := joinSep "\n" htmlParts, text := joinSep "\n" textParts }

/- ===== src/lib/parser.ts : entry point ===== -/

structure ReplayJSON where
  id : Option String := none
  format : Option String := none
  log : Option String := none
  players : Option (List String) := none
deriving Repr, DecidableEq

structure SummaryMeta where
  id : Option String
  format : Option String
  players : PlayerMap
  winner : Option String
  loser : Option String
  resultNote : Option String
deriving Repr, DecidableEq

structure SummarizedReplay where
  html : String
  text : String
  meta : SummaryMeta
deriving Repr, DecidableEq

def parseReplayData (data : ReplayJSON) : Except JsError SummarizedReplay :=
  if !truthy data.log then .error (.error "Replay JSON did not include a log field.")
  else do
    let ctx := createInitialContext
    let ctx := { ctx with
      players := { p1 := jsOr2 (data.players.bind (fun p => p.get? 0)) "Player 1"
                   p2 := jsOr2 (data.players.bind (fun p => p.get? 1)) "Player 2" }
      formatName := data.format }
    let ctx ← parseLogE ctx (data.log.getD "")
    let rendered := renderSummary ctx
    pure { html := rendered.html
           text := rendered.text
           meta := { id := data.id
                     format := ctx.formatName
                     players := ctx.players
                     winner := ctx.winner
                     loser := resolveLoser ctx
                     resultNote := ctx.resultNote } }

/- ===== predicates and concrete inputs used by the verification ===== -/

/-- The structural invariant of claim C9, as a decidable check: the
current-turn index points at the last element of the turns list, and the
turn created at construction (number 0) is still the first element. -/
def invB (ctx : ParseContext) : Bool :=
  (ctx.currentTurnIdx + 1 == ctx.turns.length) &&
    (match ctx.turns with
     | hd :: _ => JsNum.eqb hd.turn (.int 0)
     | [] => false)

/-- The lead entries recorded on turn 0 (the first turn of the list). -/
def turn0Leads (ctx : ParseContext) : List LeadEntry :=
  match ctx.turns with
  | hd :: _ => hd.leadEntries
  | [] => []

/-- The event tag of a raw log line, as processLine reads it (none for a
line that is skipped as empty). -/
def recordTag (rawLine : String) : Option String :=
  let line := if strStartsWith rawLine "|" then String.mk (rawLine.data.drop 1) else rawLine
  if line = "" then none else some ((jsSplitChar '|' line).headD "")

/-- A small but complete replay input, used to witness determinism. -/
def sampleReplay : ReplayJSON :=
  { log := some "|player|p1|Ash\n|player|p2|Misty\n|turn|1\n|move|p1a: Pikachu|Thunderbolt|p2a: Squirtle\n|-damage|p2a: Squirtle|50/100\n|turn|2\n|win|Ash"
    players := some ["Ash", "Misty"]
    format := some "gen9ou" }

/-- A context with a recorded winner, no recorded loser and two named
players, used to witness the loser-inference claim. -/
def winnerOnlyCtx : ParseContext :=
  { createInitialContext with
    players := { p1 := "Ash", p2 := "Misty" }
    winner := some "Ash" }

/-- A move action with one target and one non-stat-delta detail: the
counterexample input of claim C6. -/
def missAction : ActionSummary :=
  { type := .move
    actorRef := some "p1a"
    actorName := some "Pikachu"
    side := some .p1
    verb := "Tackle"
    targetRefs := some ["p2a"]
    targetNames := some ["Squirtle"]
    targetSpecies := some ["Squirtle"]
    details := [makeDetail "Misses"] }

/-- A one-action turn holding missAction. -/
def missTurn : TurnSummary :=
  { turn := .int 1, actions := [missAction] }

/-- A context whose current action is an open move by p1a, used to witness
the forced-switch merge. -/
def openMoveCtx : ParseContext :=
  { createInitialContext with
    turns := [missTurn]
    currentAction := some 0 }

/-- The context after processing a first turn record, used to witness the
fold invariants. -/
def c9AfterTurn : ParseContext :=
  match processLine createInitialContext "|turn|1" with
  | .ok c => c
  | .error _ => createInitialContext

end PsVis

namespace PsVis

example : simplifyBracketText "[from] ability: Intimidate" = "Intimidate" := by decide
example : simplifyBracketText "[wisher]" = "Wish" := by decide
example : simplifyBracketText "[sid] 2" = "side 2" := by decide
example : prettifyMove "thunder punch" = "Thunder Punch" := by decide
example : toIdS "Mr. Mime" = "mrmime" := by decide
example : toIconIdS "Ho-Oh" = "ho-oh" := by decide

/- ===== C7 ===== -/

/-- C7: formatting the parse of the HP/status token "48/100 psn" yields
"48% PSN", and formatting the parse of "0 fnt" yields "KO". -/
theorem c7_hp_status_roundtrip :
    formatHPStatus (parseHPStatus "48/100 psn") = "48% PSN" ∧
    formatHPStatus (parseHPStatus "0 fnt") = "KO" := by
  decide

/- ===== C10 ===== -/

/-- C10: an HP/status token whose only whitespace-separated token is
exactly "0" is marked fainted, its hp field is normalized to "0/100", and
it displays as "KO". -/
theorem c10_bare_zero_token (raw : String) (h : jsWords raw = ["0"]) :
    (parseHPStatus raw).fainted = true ∧
    (parseHPStatus raw).hp = some "0/100" ∧
    formatHPStatus (parseHPStatus raw) = "KO" := by
  have hps : parseHPStatus raw = { raw := raw, hp := some "0/100", status := none, fainted := true } := by
    unfold parseHPStatus
    rw [h]
    rfl
  rw [hps]
  exact ⟨rfl, rfl, rfl⟩

theorem c10_bare_zero_token_witness :
    (parseHPStatus "0").fainted = true ∧
    (parseHPStatus "0").hp = some "0/100" ∧
    formatHPStatus (parseHPStatus "0") = "KO" :=
  c10_bare_zero_token "0" (by decide)

/- ===== C2 ===== -/

/-- C2: parseReplayData is a pure function of its input: two runs on
identical inputs produce identical markup, identical plain text and
identical metadata. -/
theorem c2_parse_deterministic (d1 d2 : ReplayJSON) (h : d1 = d2) :
    (parseReplayData d1).map (·.html) = (parseReplayData d2).map (·.html) ∧
    (parseReplayData d1).map (·.text) = (parseReplayData d2).map (·.text) ∧
    (parseReplayData d1).map (·.meta) = (parseReplayData d2).map (·.meta) := by
  subst h
  exact ⟨rfl, rfl, rfl⟩

theorem c2_parse_deterministic_witness :
    (parseReplayData sampleReplay).map (·.html) = (parseReplayData sampleReplay).map (·.html) ∧
    (parseReplayData sampleReplay).map (·.text) = (parseReplayData sampleReplay).map (·.text) ∧
    (parseReplayData sampleReplay).map (·.meta) = (parseReplayData sampleReplay).map (·.meta) :=
  c2_parse_deterministic sampleReplay sampleReplay rfl

/- ===== C3 ===== -/

/-- C3: a missing or empty log field is the validation throw, as the claim
says, but the parser does NOT complete normally on every log string: the
record "|poke", whose field list is short, makes the poke handler read a
property of undefined and the whole parse aborts with a TypeError, while an
unknown tag alone is indeed tolerated. -/
theorem c3_short_record_aborts :
    parseReplayData { log := none } = .error (.error "Replay JSON did not include a log field.") ∧
    parseReplayData { log := some "" } = .error (.error "Replay JSON did not include a log field.") ∧
    parseReplayData { log := some "|poke" } = .error .typeError ∧
    (parseReplayData { log := some "|unknowntag|x|y" }).isOk = true := by
  refine ⟨rfl, rfl, rfl, rfl⟩

/- ===== C6 ===== -/

/-- C6 counterexample: a rendered move line with exactly one target and a
detail that is not a bare stat-delta still uses the comma separator, where
the claim requires a dash whenever any detail is not a stat-delta. -/
theorem c6_counterexample :
    (formatTurn createInitialContext missTurn).text = ["T1", "  Pikachu Tackle -> Squirtle, Misses"] ∧
    isBoostDetail (makeDetail "Misses") = false ∧
    missAction.details = [makeDetail "Misses"] := by
  decide

/-- C6 (amended): the separator between an action headline and its combined
details is a comma exactly when the action is a move with exactly one
recorded target name whose verb does not contain "spread" and that has at
least one detail; the content of the details (stat-delta or not) and
whether the target differs from the actor play no part. -/
theorem c6_separator_rule (ctx : ParseContext) (a : ActionSummary) (comb : DualFormat)
    (h : actionDetailBody a = some comb) :
    (renderActionLine ctx a).text =
      (actionHeadline ctx a).text ++
        (if a.details.length > 0 ∧ a.type = ActionType.move ∧
            a.targetNames.map List.length = some 1 ∧ containsSub a.verb "spread" = false
         then ", " else " — ") ++ comb.text := by
  unfold renderActionLine
  rw [h]
  unfold isSingleTargetAction
  by_cases h1 : a.details.length > 0 <;>
    by_cases h2 : a.type = ActionType.move <;>
      by_cases h4 : containsSub a.verb "spread" = false <;>
        cases h3 : a.targetNames <;>
          simp_all [Nat.succ_le_iff]

theorem c6_separator_rule_witness :
    (renderActionLine createInitialContext missAction).text =
      (actionHeadline createInitialContext missAction).text ++
        (if missAction.details.length > 0 ∧ missAction.type = ActionType.move ∧
            missAction.targetNames.map List.length = some 1 ∧
            containsSub missAction.verb "spread" = false
         then ", " else " — ") ++ "Misses" :=
  c6_separator_rule createInitialContext missAction { html := "Misses", text := "Misses" } (by decide)

/- ===== shared structural lemmas about the context operations ===== -/

theorem getCurrentTurn_mapCurrentTurn (ctx : ParseContext) (f : TurnSummary → TurnSummary)
    (h : ctx.currentTurnIdx < ctx.turns.length) :
    getCurrentTurn (mapCurrentTurn f ctx) = f (getCurrentTurn ctx) := by
  simp [getCurrentTurn, mapCurrentTurn, List.getD, List.get?_set_eq, h]

theorem getOrCreatePokemon_fst (ctx : ParseContext) (ref : String) (side : Side) (sp : String) :
    ∃ P, (getOrCreatePokemon ctx ref side sp).1 = { ctx with pokemon := P } := by
  unfold getOrCreatePokemon
  cases lookupPokemon ctx ref with
  | some m => exact ⟨ctx.pokemon, rfl⟩
  | none => exact ⟨_, rfl⟩

theorem detailWithIcon_fst (ctx : ParseContext) (ref : String) (body : String)
    (htmlBody : Option String) :
    ∃ P, (detailWithIcon ctx ref body htmlBody).1 = { ctx with pokemon := P } := by
  obtain ⟨P, hP⟩ := getOrCreatePokemon_fst ctx ref (resolveSide ref) "Unknown"
  exact ⟨P, hP⟩

theorem jsTrimL_cons_ne (c : Char) (l : List Char) (h : isWs c = false) :
    jsTrimL (c :: l) ≠ [] := by
  unfold jsTrimL dropWs
  rw [List.dropWhile_cons]
  simp only [h, Bool.false_eq_true, if_false]
  intro hcon
  rw [List.reverse_eq_nil_iff, List.dropWhile_eq_nil_iff] at hcon
  have hc : c ∈ (c :: l).reverse := by simp
  have := hcon _ hc
  rw [h] at this
  exact Bool.false_ne_true this

theorem detailWithIcon_html_ne (ctx : ParseContext) (ref : String) (body : String)
    (htmlBody : Option String) :
    (detailWithIcon ctx ref body htmlBody).2.html ≠ "" := by
  show (makeDetail
      (jsTrim (getPokemonDisplayName (getOrCreatePokemon ctx ref (resolveSide ref) "Unknown").1 ref ++ " " ++ body))
      (some (jsTrim (iconHTML (some (getOrCreatePokemon ctx ref (resolveSide ref) "Unknown").2.iconId)
        (getPokemonDisplayName (getOrCreatePokemon ctx ref (resolveSide ref) "Unknown").1 ref) ++
        htmlBody.getD body)))).html ≠ ""
  obtain ⟨tail, hdata⟩ :
      ∃ tail, (iconHTML (some (getOrCreatePokemon ctx ref (resolveSide ref) "Unknown").2.iconId)
        (getPokemonDisplayName (getOrCreatePokemon ctx ref (resolveSide ref) "Unknown").1 ref) ++
        htmlBody.getD body).data = '<' :: tail := ⟨_, rfl⟩
  have htrim : jsTrim (iconHTML (some (getOrCreatePokemon ctx ref (resolveSide ref) "Unknown").2.iconId)
      (getPokemonDisplayName (getOrCreatePokemon ctx ref (resolveSide ref) "Unknown").1 ref) ++
      htmlBody.getD body) ≠ "" := by
    unfold jsTrim
    rw [hdata]
    intro hcon
    exact jsTrimL_cons_ne '<' tail (by decide) (by simpa using congrArg String.data hcon)
  unfold makeDetail
  split
  · rename_i hcond
    simp only [Bool.and_eq_true, Bool.not_eq_true', truthy] at hcond
    exact absurd (by simpa using hcond.2) htrim
  · simpa using htrim

theorem appendDetailEntry_force (ctx : ParseContext) (d : DualFormat) (hd : d.html ≠ "") :
    appendDetailEntry ctx d true =
      mapCurrentTurn (fun t => { t with endEvents := t.endEvents ++ [d] }) ctx := by
  unfold appendDetailEntry
  simp [hd]

theorem finalizePendingAbilityBoost_none (ctx : ParseContext)
    (h : ctx.pendingAbilityBoost = none) : finalizePendingAbilityBoost ctx = ctx := by
  unfold finalizePendingAbilityBoost
  rw [h]

theorem getCurrentAction_congr (c1 c2 : ParseContext) (h1 : c1.turns = c2.turns)
    (h2 : c1.currentTurnIdx = c2.currentTurnIdx) (h3 : c1.currentAction = c2.currentAction) :
    getCurrentAction c1 = getCurrentAction c2 := by
  unfold getCurrentAction getCurrentTurn
  rw [h1, h2, h3]

theorem updateActivePosition_fields (c : ParseContext) (r : String) :
    (updateActivePosition c r).turns = c.turns ∧
    (updateActivePosition c r).currentTurnIdx = c.currentTurnIdx ∧
    (updateActivePosition c r).currentAction = c.currentAction ∧
    (updateActivePosition c r).pokemon = c.pokemon := by
  unfold updateActivePosition
  split <;> exact ⟨rfl, rfl, rfl, rfl⟩

theorem find?_setPokemon_aux (ref : String) (m' : PokemonState)
    (l : List (String × PokemonState)) (p : String × PokemonState)
    (h : l.find? (fun q => q.1 == ref) = some p) :
    (l.map (fun q => if q.1 == ref then (ref, m') else q)).find? (fun q => q.1 == ref) =
      some (ref, m') := by
  induction l with
  | nil => simp [List.find?] at h
  | cons hd tl ih =>
    by_cases hh : (hd.1 == ref) = true
    · simp [List.find?, hh]
    · rw [List.find?_cons_of_neg _ (by simpa using hh)] at h
      simp only [List.map_cons, hh, Bool.false_eq_true, if_false]
      rw [List.find?_cons_of_neg _ (by simpa using hh)]
      exact ih h

theorem lookupPokemon_setPokemon (c : ParseContext) (ref : String) (m0 m' : PokemonState)
    (h : lookupPokemon c ref = some m0) :
    lookupPokemon (setPokemon c ref m') ref = some m' := by
  unfold lookupPokemon at h ⊢
  unfold setPokemon
  obtain ⟨p, hp, hm⟩ : ∃ p, c.pokemon.find? (fun q => q.1 == ref) = some p ∧ p.2 = m0 := by
    cases hf : c.pokemon.find? (fun q => q.1 == ref) with
    | none => rw [hf] at h; simp at h
    | some p => rw [hf] at h; simp at h; exact ⟨p, rfl, h⟩
  rw [show ({ c with pokemon := c.pokemon.map (fun q => if q.1 == ref then (ref, m') else q) } :
      ParseContext).pokemon = c.pokemon.map (fun q => if q.1 == ref then (ref, m') else q) from rfl]
  rw [find?_setPokemon_aux ref m' c.pokemon p hp]
  rfl

theorem lookupPokemon_append_self (c : ParseContext) (ref : String) (m : PokemonState)
    (h : lookupPokemon c ref = none) :
    (({ c with pokemon := c.pokemon ++ [(ref, m)] } : ParseContext).pokemon.find?
      (fun q => q.1 == ref)) = some (ref, m) := by
  unfold lookupPokemon at h
  have hf : c.pokemon.find? (fun q => q.1 == ref) = none := by
    cases hf : c.pokemon.find? (fun q => q.1 == ref) with
    | none => rfl
    | some p => rw [hf] at h; simp at h
  rw [show ({ c with pokemon := c.pokemon ++ [(ref, m)] } : ParseContext).pokemon =
    c.pokemon ++ [(ref, m)] from rfl]
  rw [List.find?_append, hf]
  simp [List.find?]

theorem addSpecies_ok (ctx : ParseContext) (side : Side) (sp : String) :
    ∃ ctx1, addSpecies ctx (some (sideKey side)) (some sp) = .ok ctx1 ∧
      ctx1.pokemon = ctx.pokemon ∧ ctx1.turns = ctx.turns ∧
      ctx1.currentTurnIdx = ctx.currentTurnIdx ∧ ctx1.currentAction = ctx.currentAction ∧
      ctx1.pendingAbilityBoost = ctx.pendingAbilityBoost ∧
      ctx1.pendingFieldEnds = ctx.pendingFieldEnds ∧
      ctx1.leadPhase = ctx.leadPhase ∧
      ctx1.faintedThisTurn = ctx.faintedThisTurn := by
  unfold addSpecies
  cases side <;>
    simp only [require, sideKey, Bind.bind, Except.bind, pure, Except.pure] <;>
      (repeat' split) <;>
        first
          | exact ⟨ctx, rfl, rfl, rfl, rfl, rfl, rfl, rfl, rfl, rfl⟩
          | exact ⟨_, rfl, rfl, rfl, rfl, rfl, rfl, rfl, rfl, rfl⟩

theorem getOrCreatePokemon_spec (ctx : ParseContext) (ref : String) (side : Side) (sp : String) :
    lookupPokemon (getOrCreatePokemon ctx ref side sp).1 ref =
      some (getOrCreatePokemon ctx ref side sp).2 ∧
    ∃ P, (getOrCreatePokemon ctx ref side sp).1 = { ctx with pokemon := P } := by
  unfold getOrCreatePokemon
  cases hl : lookupPokemon ctx ref with
  | some existing =>
    simp only
    exact ⟨hl, ctx.pokemon, rfl⟩
  | none =>
    simp only
    refine ⟨?_, _, rfl⟩
    unfold lookupPokemon
    rw [lookupPokemon_append_self ctx ref _ hl]
    rfl

theorem updatePokemonSpecies_ok (ctx : ParseContext) (ref sp : String) :
    ∃ ctx1 m, updatePokemonSpecies ctx ref (some sp) = .ok ctx1 ∧
      lookupPokemon ctx1 ref = some m ∧
      ctx1.turns = ctx.turns ∧ ctx1.currentTurnIdx = ctx.currentTurnIdx ∧
      ctx1.currentAction = ctx.currentAction ∧
      ctx1.pendingAbilityBoost = ctx.pendingAbilityBoost ∧
      ctx1.pendingFieldEnds = ctx.pendingFieldEnds ∧
      ctx1.leadPhase = ctx.leadPhase ∧
      ctx1.faintedThisTurn = ctx.faintedThisTurn := by
  unfold updatePokemonSpecies
  dsimp only
  obtain ⟨hlook, P, hP⟩ := getOrCreatePokemon_spec ctx ref (resolveSide ref) ((some sp).getD "Unknown")
  generalize hg : getOrCreatePokemon ctx ref (resolveSide ref) ((some sp).getD "Unknown") = G
  rw [hg] at hlook hP
  obtain ⟨cA, vm⟩ := G
  dsimp only
  dsimp only at hlook hP
  set M : PokemonState := { vm with species := (some sp).getD "Unknown", iconId := jsOr2 (some (toIconId (some sp))) vm.iconId } with hMd
  obtain ⟨ctx1, ha, hpok, ht, hi, hca, hpb, hpf, hlp, hft⟩ :=
    addSpecies_ok (setPokemon cA ref M) (resolveSide ref) sp
  rw [ha]
  refine ⟨ctx1, M, rfl, ?_, ?_, ?_, ?_, ?_, ?_, ?_, ?_⟩
  · have h2 := lookupPokemon_setPokemon cA ref vm M hlook
    refine Eq.trans ?_ h2
    unfold lookupPokemon
    rw [hpok]
  · rw [ht, hP]; rfl
  · rw [hi, hP]; rfl
  · rw [hca, hP]; rfl
  · rw [hpb, hP]; rfl
  · rw [hpf, hP]; rfl
  · rw [hlp, hP]; rfl
  · rw [hft, hP]; rfl

theorem updActiveSet_idx (c : ParseContext) (r : String) (m : PokemonState) :
    (updateActivePosition (setPokemon c r m) r).currentTurnIdx = c.currentTurnIdx := by
  obtain ⟨-, h2, -, -⟩ := updateActivePosition_fields (setPokemon c r m) r
  rw [h2]
  rfl

theorem updActiveSet_turns_len (c : ParseContext) (r : String) (m : PokemonState) :
    (updateActivePosition (setPokemon c r m) r).turns.length = c.turns.length := by
  obtain ⟨h1, -, -, -⟩ := updateActivePosition_fields (setPokemon c r m) r
  rw [h1]
  rfl

theorem updActiveSet_curAct (c : ParseContext) (r : String) (m : PokemonState) :
    (updateActivePosition (setPokemon c r m) r).currentAction = c.currentAction := by
  obtain ⟨-, -, h3, -⟩ := updateActivePosition_fields (setPokemon c r m) r
  rw [h3]
  rfl

theorem updActiveSet_turn (c : ParseContext) (r : String) (m : PokemonState) :
    getCurrentTurn (updateActivePosition (setPokemon c r m) r) = getCurrentTurn c := by
  unfold getCurrentTurn
  obtain ⟨h1, h2, -, -⟩ := updateActivePosition_fields (setPokemon c r m) r
  rw [h1, h2]
  rfl

theorem getCurrentAction_updateActive_setPokemon (c : ParseContext) (r : String) (m : PokemonState) :
    getCurrentAction (updateActivePosition (setPokemon c r m) r) = getCurrentAction c := by
  obtain ⟨h1, h2, h3, -⟩ := updateActivePosition_fields (setPokemon c r m) r
  unfold getCurrentAction getCurrentTurn
  rw [h1, h2, h3]
  rfl

theorem makeDetail_text_of_ne (t : String) (h : Option String) (ht : t ≠ "") :
    (makeDetail t h).text = t := by
  unfold makeDetail
  simp [ht]

theorem mapCurrentAction_spec (ctx : ParseContext) (f : ActionSummary → ActionSummary)
    (a : ActionSummary) (h : getCurrentAction ctx = some a)
    (hidx : ctx.currentTurnIdx < ctx.turns.length) :
    getCurrentAction (mapCurrentAction f ctx) = some (f a) ∧
    (mapCurrentAction f ctx).currentAction = ctx.currentAction ∧
    (getCurrentTurn (mapCurrentAction f ctx)).actions.length = (getCurrentTurn ctx).actions.length ∧
    (mapCurrentAction f ctx).currentTurnIdx = ctx.currentTurnIdx ∧
    (mapCurrentAction f ctx).turns.length = ctx.turns.length := by
  obtain ⟨i, hci, hai⟩ : ∃ i, ctx.currentAction = some i ∧ (getCurrentTurn ctx).actions.get? i = some a := by
    unfold getCurrentAction at h
    cases hc : ctx.currentAction with
    | none => rw [hc] at h; exact absurd h (by simp)
    | some j => rw [hc] at h; exact ⟨j, rfl, h⟩
  have hm : mapCurrentAction f ctx = mapCurrentTurn
      (fun t => { t with actions := t.actions.set i (f (t.actions.getD i dummyAction)) }) ctx := by
    unfold mapCurrentAction
    rw [hci]
  have hgt := getCurrentTurn_mapCurrentTurn ctx
    (fun t => { t with actions := t.actions.set i (f (t.actions.getD i dummyAction)) }) hidx
  obtain ⟨hlt, -⟩ := List.get?_eq_some.mp hai
  have hai2 : (getCurrentTurn ctx).actions[i]? = some a := by
    rw [← List.get?_eq_getElem?]
    exact hai
  have hgd : (getCurrentTurn ctx).actions.getD i dummyAction = a := by
    simp [List.getD_eq_get?, hai2]
  refine ⟨?_, ?_, ?_, ?_, ?_⟩
  · rw [hm]
    unfold getCurrentAction
    rw [show (mapCurrentTurn (fun t => { t with actions := t.actions.set i (f (t.actions.getD i dummyAction)) }) ctx).currentAction = ctx.currentAction from rfl]
    rw [hci, hgt]
    show ((getCurrentTurn ctx).actions.set i
      (f ((getCurrentTurn ctx).actions.getD i dummyAction))).get? i = some (f a)
    rw [hgd]
    simp [List.get?_set_eq, hlt]
  · rw [hm]
    rfl
  · rw [hm, hgt]
    simp
  · rw [hm]
    rfl
  · rw [hm]
    simp [mapCurrentTurn]

theorem c1_assemble (ctx X : ParseContext) (a : ActionSummary) (pre post : String)
    (sdHtml : Option String)
    (hga : getCurrentAction X = some a)
    (hidxX : X.currentTurnIdx < X.turns.length)
    (h1 : X.currentAction = ctx.currentAction)
    (h2 : (getCurrentTurn X).actions.length = (getCurrentTurn ctx).actions.length) :
    (getCurrentTurn (mapCurrentAction
        (fun a => { a with details := a.details ++ [makeDetail (pre ++ " -> " ++ post) sdHtml] })
        (mapCurrentAction (fun a => { a with details := consolidateBoostDetails a.details }) X))).actions.length =
      (getCurrentTurn ctx).actions.length ∧
    (mapCurrentAction
        (fun a => { a with details := a.details ++ [makeDetail (pre ++ " -> " ++ post) sdHtml] })
        (mapCurrentAction (fun a => { a with details := consolidateBoostDetails a.details }) X)).currentAction =
      ctx.currentAction ∧
    getCurrentAction (mapCurrentAction
        (fun a => { a with details := a.details ++ [makeDetail (pre ++ " -> " ++ post) sdHtml] })
        (mapCurrentAction (fun a => { a with details := consolidateBoostDetails a.details }) X)) =
      some { a with details := consolidateBoostDetails a.details ++ [makeDetail (pre ++ " -> " ++ post) sdHtml] } ∧
    ∃ p q, (makeDetail (pre ++ " -> " ++ post) sdHtml).text = p ++ " -> " ++ q := by
  obtain ⟨s1, s2, s3, s4, s5⟩ := mapCurrentAction_spec X
    (fun a => { a with details := consolidateBoostDetails a.details }) a hga hidxX
  have hidx1 : (mapCurrentAction (fun a => { a with details := consolidateBoostDetails a.details }) X).currentTurnIdx <
      (mapCurrentAction (fun a => { a with details := consolidateBoostDetails a.details }) X).turns.length := by
    rw [s4, s5]
    exact hidxX
  obtain ⟨t1, t2, t3, t4, t5⟩ := mapCurrentAction_spec _
    (fun a => { a with details := a.details ++ [makeDetail (pre ++ " -> " ++ post) sdHtml] }) _ s1 hidx1
  refine ⟨?_, ?_, ?_, ?_⟩
  · rw [t3, s3, h2]
  · rw [t2, s2, h1]
  · exact t1
  · refine ⟨pre, post, ?_⟩
    rw [makeDetail_text_of_ne]
    intro hc
    have hlen := congrArg String.length hc
    rw [String.length_append, String.length_append] at hlen
    rw [show (" -> " : String).length = 4 from rfl] at hlen
    rw [show ("" : String).length = 0 from rfl] at hlen
    omega

/- ===== C1 ===== -/

/-- C1: a switch record for the actor of the currently open move action,
carrying a non-ability/non-item annotation, does not append a second
action to the current turn: the action count is unchanged, the open
action stays current, its bare stat-delta details are consolidated, and a
switch detail of the form "previous -> new occupant" is appended to it. -/
theorem c1_forced_switch_merge (ctx : ParseContext) (refRaw det hp : String) (ann : List String)
    (a : ActionSummary)
    (hidx : ctx.currentTurnIdx < ctx.turns.length)
    (hpab : ctx.pendingAbilityBoost = none)
    (hact : getCurrentAction ctx = some a)
    (hty : a.type = ActionType.move)
    (href : a.actorRef = some (parsePokemonRef refRaw).ref)
    (hforced : ((parseExtras ("switch" :: refRaw :: det :: hp :: ann) 4).find? fun extra =>
        !containsSub (jsToLower extra) "ability" && !containsSub (jsToLower extra) "item" &&
          extra.length > 0).isSome = true) :
    ∃ ctx' sd,
      processParts ctx ("switch" :: refRaw :: det :: hp :: ann) = .ok ctx' ∧
      (getCurrentTurn ctx').actions.length = (getCurrentTurn ctx).actions.length ∧
      ctx'.currentAction = ctx.currentAction ∧
      getCurrentAction ctx' = some { a with details := consolidateBoostDetails a.details ++ [sd] } ∧
      ∃ prev next, sd.text = prev ++ " -> " ++ next := by
  unfold processParts handleSwitch
  simp only [finalizePendingAbilityBoost_none ctx hpab, List.headD_cons, List.get?, Option.getD_some,
    require, Bind.bind, Except.bind, pure, Except.pure]
  obtain ⟨ctx1, m, hupd, hlook, ht, hi, hca2, hpb2, hpf2, hlp2, hft2⟩ :=
    updatePokemonSpecies_ok ctx (parsePokemonRef refRaw).ref ((jsSplitChar ',' det).headD "")
  have hGA1 : getCurrentAction ctx1 = getCurrentAction ctx := getCurrentAction_congr ctx1 ctx ht hi hca2
  have ha2 : getCurrentAction ctx =
      some { a with type := ActionType.move, actorRef := some (parsePokemonRef refRaw).ref } := by
    rw [← hty, ← href, hact]
  simp only [hupd, hlook, getCurrentAction_updateActive_setPokemon, hGA1, ha2,
    hforced, beq_self_eq_true, Bool.true_and, Bool.and_true, Bool.and_self]
  exact ⟨_, _, rfl, c1_assemble ctx _ a _ _ _
    (by rw [getCurrentAction_updateActive_setPokemon, hGA1]; exact hact)
    (by rw [updActiveSet_idx, updActiveSet_turns_len, hi, ht]; exact hidx)
    (by rw [updActiveSet_curAct, hca2])
    (by rw [updActiveSet_turn]; unfold getCurrentTurn; rw [ht, hi])⟩

theorem c1_forced_switch_merge_witness :
    ∃ ctx' sd,
      processParts openMoveCtx ("switch" :: "p1a: Zap" :: "Blissey, F" :: "100/100" :: ["[from] Eject Button"]) = .ok ctx' ∧
      (getCurrentTurn ctx').actions.length = (getCurrentTurn openMoveCtx).actions.length ∧
      ctx'.currentAction = openMoveCtx.currentAction ∧
      getCurrentAction ctx' = some { missAction with details := consolidateBoostDetails missAction.details ++ [sd] } ∧
      ∃ prev next, sd.text = prev ++ " -> " ++ next :=
  c1_forced_switch_merge openMoveCtx "p1a: Zap" "Blissey, F" "100/100" ["[from] Eject Button"]
    missAction (by decide) rfl rfl rfl (by decide) (by decide)

/- ===== C5 ===== -/

theorem mapCurrentTurn_length (ctx : ParseContext) (f : TurnSummary → TurnSummary) :
    (mapCurrentTurn f ctx).turns.length = ctx.turns.length := by
  simp [mapCurrentTurn]

theorem getCurrentAction_mapCurrentTurn (ctx : ParseContext) (f : TurnSummary → TurnSummary)
    (hf : ∀ t, (f t).actions = t.actions) (h : ctx.currentTurnIdx < ctx.turns.length) :
    getCurrentAction (mapCurrentTurn f ctx) = getCurrentAction ctx := by
  unfold getCurrentAction
  rw [show (mapCurrentTurn f ctx).currentAction = ctx.currentAction from rfl,
    getCurrentTurn_mapCurrentTurn ctx f h, hf]

theorem flushPendingFieldEnds_ne (ctx : ParseContext) (h : ctx.pendingFieldEnds ≠ []) :
    flushPendingFieldEnds ctx =
      { mapCurrentTurn (fun t => { t with endEvents := t.endEvents ++
          [makeDetail (joinSep "; " (ctx.pendingFieldEnds.map (fun e => e ++ " ends")))] }) ctx with
        pendingFieldEnds := [] } := by
  unfold flushPendingFieldEnds
  cases hfe : ctx.pendingFieldEnds with
  | nil => exact absurd hfe h
  | cons x xs => simp [hfe, mapCurrentTurn]

theorem c5_assemble (ctx E : ParseContext) (r b : String) (FP : List DualFormat)
    (h1 : E.currentTurnIdx = ctx.currentTurnIdx)
    (h2 : E.turns.length = ctx.turns.length)
    (h3 : E.currentAction = ctx.currentAction)
    (h4 : E.pendingFieldEnds = [])
    (h5 : getCurrentTurn E = { getCurrentTurn ctx with endEvents := (getCurrentTurn ctx).endEvents ++ FP })
    (hidx : ctx.currentTurnIdx < ctx.turns.length) :
    (getCurrentTurn (appendDetailEntry (detailWithIcon E r b none).1 (detailWithIcon E r b none).2 true)).endEvents =
      (getCurrentTurn ctx).endEvents ++ FP ++ [(detailWithIcon E r b none).2] ∧
    (detailWithIcon E r b none).2.html ≠ "" ∧
    (appendDetailEntry (detailWithIcon E r b none).1 (detailWithIcon E r b none).2 true).pendingFieldEnds = [] ∧
    getCurrentAction (appendDetailEntry (detailWithIcon E r b none).1 (detailWithIcon E r b none).2 true) =
      getCurrentAction ctx ∧
    (appendDetailEntry (detailWithIcon E r b none).1 (detailWithIcon E r b none).2 true).currentAction =
      ctx.currentAction := by
  obtain ⟨P3, hP3⟩ := detailWithIcon_fst E r b none
  have hhtml := detailWithIcon_html_ne E r b none
  have hidxE : ({ E with pokemon := P3 } : ParseContext).currentTurnIdx <
      ({ E with pokemon := P3 } : ParseContext).turns.length := by
    simpa [h1, h2] using hidx
  rw [hP3, appendDetailEntry_force _ _ hhtml]
  refine ⟨?_, hhtml, ?_, ?_, ?_⟩
  · rw [getCurrentTurn_mapCurrentTurn _ _ hidxE,
      show getCurrentTurn ({ E with pokemon := P3 } : ParseContext) = getCurrentTurn E from rfl, h5]
  · simp [mapCurrentTurn, h4]
  · rw [getCurrentAction_mapCurrentTurn _
      (fun t => { t with endEvents := t.endEvents ++ [(detailWithIcon E r b none).2] })
      (fun t => rfl) hidxE]
    rw [show getCurrentAction ({ E with pokemon := P3 } : ParseContext) = getCurrentAction E from rfl]
    unfold getCurrentAction
    rw [h3, h5]
  · simp [mapCurrentTurn, h3]

theorem c5_core (ctx : ParseContext) (P2 : List (String × PokemonState)) (r b : String)
    (hidx : ctx.currentTurnIdx < ctx.turns.length) :
    (getCurrentTurn (appendDetailEntry
        (detailWithIcon (if (true && decide (ctx.pendingFieldEnds.length > 0)) = true then
            flushPendingFieldEnds { ctx with pokemon := P2 }
          else { ctx with pokemon := P2 }) r b none).1
        (detailWithIcon (if (true && decide (ctx.pendingFieldEnds.length > 0)) = true then
            flushPendingFieldEnds { ctx with pokemon := P2 }
          else { ctx with pokemon := P2 }) r b none).2 true)).endEvents =
      (getCurrentTurn ctx).endEvents ++
        (if ctx.pendingFieldEnds.isEmpty then []
         else [makeDetail (joinSep "; " (ctx.pendingFieldEnds.map (fun e => e ++ " ends")))]) ++
        [(detailWithIcon (if (true && decide (ctx.pendingFieldEnds.length > 0)) = true then
            flushPendingFieldEnds { ctx with pokemon := P2 }
          else { ctx with pokemon := P2 }) r b none).2] ∧
    (detailWithIcon (if (true && decide (ctx.pendingFieldEnds.length > 0)) = true then
        flushPendingFieldEnds { ctx with pokemon := P2 }
      else { ctx with pokemon := P2 }) r b none).2.html ≠ "" ∧
    (appendDetailEntry
        (detailWithIcon (if (true && decide (ctx.pendingFieldEnds.length > 0)) = true then
            flushPendingFieldEnds { ctx with pokemon := P2 }
          else { ctx with pokemon := P2 }) r b none).1
        (detailWithIcon (if (true && decide (ctx.pendingFieldEnds.length > 0)) = true then
            flushPendingFieldEnds { ctx with pokemon := P2 }
          else { ctx with pokemon := P2 }) r b none).2 true).pendingFieldEnds = [] ∧
    getCurrentAction (appendDetailEntry
        (detailWithIcon (if (true && decide (ctx.pendingFieldEnds.length > 0)) = true then
            flushPendingFieldEnds { ctx with pokemon := P2 }
          else { ctx with pokemon := P2 }) r b none).1
        (detailWithIcon (if (true && decide (ctx.pendingFieldEnds.length > 0)) = true then
            flushPendingFieldEnds { ctx with pokemon := P2 }
          else { ctx with pokemon := P2 }) r b none).2 true) = getCurrentAction ctx ∧
    (appendDetailEntry
        (detailWithIcon (if (true && decide (ctx.pendingFieldEnds.length > 0)) = true then
            flushPendingFieldEnds { ctx with pokemon := P2 }
          else { ctx with pokemon := P2 }) r b none).1
        (detailWithIcon (if (true && decide (ctx.pendingFieldEnds.length > 0)) = true then
            flushPendingFieldEnds { ctx with pokemon := P2 }
          else { ctx with pokemon := P2 }) r b none).2 true).currentAction = ctx.currentAction := by
  refine c5_assemble ctx _ r b _ ?_ ?_ ?_ ?_ ?_ hidx
  · split
    · unfold flushPendingFieldEnds
      split
      · rfl
      · rfl
    · rfl
  · split
    · unfold flushPendingFieldEnds
      split
      · rfl
      · simp [mapCurrentTurn]
    · rfl
  · split
    · unfold flushPendingFieldEnds
      split
      · rfl
      · rfl
    · rfl
  · split
    · unfold flushPendingFieldEnds
      split
      · rename_i hin
        simp only [beq_iff_eq, List.length_eq_zero] at hin
        exact hin
      · rfl
    · rename_i hout
      simp only [Bool.true_and, decide_eq_true_eq, not_lt, Nat.le_zero,
        List.length_eq_zero] at hout
      exact hout
  · by_cases hfe : ctx.pendingFieldEnds = []
    · have hcond : (true && decide (ctx.pendingFieldEnds.length > 0)) = false := by simp [hfe]
      simp only [hcond, Bool.false_eq_true, if_false]
      rw [hfe]
      show getCurrentTurn _ = { getCurrentTurn ctx with endEvents := (getCurrentTurn ctx).endEvents ++ [] }
      rw [List.append_nil]
      rfl
    · have hcond : (true && decide (ctx.pendingFieldEnds.length > 0)) = true := by
        simp [List.length_pos, hfe]
      simp only [hcond, if_pos rfl]
      have hee : ({ ctx with pokemon := P2 } : ParseContext).pendingFieldEnds ≠ [] := by
        simpa using hfe
      rw [flushPendingFieldEnds_ne { ctx with pokemon := P2 } hee,
        show ctx.pendingFieldEnds.isEmpty = false by simp [List.isEmpty_iff, hfe]]
      simp only [Bool.false_eq_true, if_false]
      show getCurrentTurn (mapCurrentTurn (fun t => { t with endEvents := t.endEvents ++
          [makeDetail (joinSep "; " (({ ctx with pokemon := P2 } : ParseContext).pendingFieldEnds.map
            (fun e => e ++ " ends")))] }) { ctx with pokemon := P2 }) =
        { getCurrentTurn ctx with endEvents := (getCurrentTurn ctx).endEvents ++
          [makeDetail (joinSep "; " (ctx.pendingFieldEnds.map (fun e => e ++ " ends")))] }
      rw [getCurrentTurn_mapCurrentTurn ({ ctx with pokemon := P2 }) _ hidx]
      rfl

/-- C5: a damage record whose annotations include a recognized residual
end-of-turn source appends its detail to the current turn's trailing
bucket, not to the open action, and any buffered field-end lines are
flushed into the trailing bucket immediately before it. -/
theorem c5_eot_damage_grouping (ctx : ParseContext) (refRaw hp : String) (ann : List String)
    (hidx : ctx.currentTurnIdx < ctx.turns.length)
    (hEOT : ((parseExtras ("-damage" :: refRaw :: hp :: ann) 3).filter (fun s => s ≠ "")).any
      isEndOfTurnSource = true) :
    ∃ ctx' d,
      processParts ctx ("-damage" :: refRaw :: hp :: ann) = .ok ctx' ∧
      (getCurrentTurn ctx').endEvents =
        (getCurrentTurn ctx).endEvents ++
          (if ctx.pendingFieldEnds.isEmpty then []
           else [makeDetail (joinSep "; " (ctx.pendingFieldEnds.map (fun e => e ++ " ends")))]) ++
          [d] ∧
      d.html ≠ "" ∧
      ctx'.pendingFieldEnds = [] ∧
      getCurrentAction ctx' = getCurrentAction ctx ∧
      ctx'.currentAction = ctx.currentAction := by
  unfold processParts handleDamage
  simp only [List.headD, List.get?, require, Bind.bind, Except.bind, pure, Except.pure]
  rw [hEOT]
  obtain ⟨P1, hP1⟩ := getOrCreatePokemon_fst ctx (parsePokemonRef refRaw).ref
    (resolveSide (parsePokemonRef refRaw).ref) "Unknown"
  rw [hP1]
  simp only [setPokemon]
  obtain ⟨h1, h2, h3, h4, h5⟩ := c5_core ctx _ (parsePokemonRef refRaw).ref _ hidx
  exact ⟨_, _, rfl, h1, h2, h3, h4, h5⟩


theorem c5_eot_damage_grouping_witness :
    ∃ ctx' d,
      processParts createInitialContext ("-damage" :: "p1a: Zap" :: "90/100" :: ["[from] item: Leftovers"]) = .ok ctx' ∧
      (getCurrentTurn ctx').endEvents =
        (getCurrentTurn createInitialContext).endEvents ++
          (if createInitialContext.pendingFieldEnds.isEmpty then []
           else [makeDetail (joinSep "; " (createInitialContext.pendingFieldEnds.map (fun e => e ++ " ends")))]) ++
          [d] ∧
      d.html ≠ "" ∧
      ctx'.pendingFieldEnds = [] ∧
      getCurrentAction ctx' = getCurrentAction createInitialContext ∧
      ctx'.currentAction = createInitialContext.currentAction :=
  c5_eot_damage_grouping createInitialContext "p1a: Zap" "90/100" ["[from] item: Leftovers"]
    (by decide) (by decide)

/- ===== C8 ===== -/

/-- C8: with a recorded winner token, no recorded loser token, and the
winner matching one of the two named players up to identifier
normalization, the resolved loser is the other named player. -/
theorem c8_loser_inference (ctx : ParseContext)
    (hl : ctx.loser = none ∨ ctx.loser = some "")
    (hw : ∃ w, ctx.winner = some w ∧ w ≠ "")
    (_hm : toId ctx.winner = toIdS ctx.players.p1 ∨ toId ctx.winner = toIdS ctx.players.p2) :
    resolveLoser ctx =
      some (if toId ctx.winner = toIdS ctx.players.p1 then ctx.players.p2 else ctx.players.p1) := by
  obtain ⟨w, hw1, hw2⟩ := hw
  have htw : truthy ctx.winner = true := by rw [hw1]; simpa [truthy] using hw2
  have htl : truthy ctx.loser = false := by rcases hl with h | h <;> simp [h, truthy]
  unfold resolveLoser
  rw [htl, htw]
  by_cases hcase : toId ctx.winner = toIdS ctx.players.p1 <;>
    simp [truthy, hcase]

/- ===== C4 ===== -/

theorem findCloseAux_spec (t : List Char) (acc r : List Char) (h : t.contains ']' = false) :
    findCloseAux acc (t ++ ']' :: r) = some (acc.reverse ++ t, r) := by
  induction t generalizing acc with
  | nil =>
    simp only [List.nil_append, List.append_nil]
    rfl
  | cons c t ih =>
    rw [List.contains_cons, Bool.or_eq_false_iff] at h
    have hc : (c == ']') = false := by
      rcases h with ⟨h1, _⟩
      rw [beq_eq_false_iff_ne] at h1 ⊢
      exact fun hcc => h1 hcc.symm
    simp [findCloseAux, hc, ih _ h.2, List.reverse_cons, List.append_assoc]

theorem bracketSplit_cons (c : Char) (tail : List Char) :
    bracketSplit (String.mk ('[' :: c :: tail)) =
      (match findCloseAux [c] tail with
       | some (tag, rest) => some (String.mk tag, String.mk rest)
       | none => none) := rfl

theorem bracketSplit_mk (t rest : String) (h1 : t.data ≠ []) (h2 : t.data.contains ']' = false) :
    bracketSplit ("[" ++ t ++ "]" ++ rest) = some (t, rest) := by
  obtain ⟨c, t', ht⟩ : ∃ c t', t.data = c :: t' := by
    cases hh : t.data with
    | nil => exact absurd hh h1
    | cons c t' => exact ⟨c, t', rfl⟩
  have h2' : t'.contains ']' = false := by
    rw [ht, List.contains_cons, Bool.or_eq_false_iff] at h2
    exact h2.2
  have hdata : ("[" ++ t ++ "]" ++ rest).data = '[' :: c :: (t' ++ ']' :: rest.data) := by
    simp [String.data_append, ht]
  calc bracketSplit ("[" ++ t ++ "]" ++ rest)
      = bracketSplit (String.mk ('[' :: c :: (t' ++ ']' :: rest.data))) := by
        rw [show ("[" ++ t ++ "]" ++ rest) = String.mk ('[' :: c :: (t' ++ ']' :: rest.data)) from
          congrArg String.mk hdata]
    _ = (match findCloseAux [c] (t' ++ ']' :: rest.data) with
         | some (tag, rest') => some (String.mk tag, String.mk rest')
         | none => none) := bracketSplit_cons c (t' ++ ']' :: rest.data)
    _ = some (String.mk ([c].reverse ++ t'), String.mk rest.data) := by
        rw [findCloseAux_spec t' [c] rest.data h2']
    _ = some (t, rest) := by
        have : String.mk ([c].reverse ++ t') = t := by
          simp only [List.reverse_singleton, List.singleton_append]
          rw [← ht]
        rw [this]

/-- C4 counterexample: the from translation does not carry a leading
"from " prefix (the source strips the kind label and returns the bare
source), and a spread annotation is suppressed to the empty string rather
than producing a spread marker. -/
theorem c4_counterexample :
    simplifyBracketText "[from] item: Leftovers" = "Leftovers" ∧
    simplifyBracketText "[from] item: Leftovers" ≠ "from Leftovers" ∧
    simplifyBracketText "[spread] p2a,p2b" = "" ∧
    simplifyBracketText "[spread] p2a,p2b" ≠ "spread" := by
  decide

/-- C4 (amended): the translation table with the corrected from and spread
rows: from yields the source with its ability/item/move label stripped and
no added prefix, of and spread are suppressed, msg and move pass through,
sid yields "side n", wisher yields "Wish from name" or bare "Wish", and an
unknown tag yields its content, or the tag itself when the content is
empty. -/
theorem c4_bracket_table (tag rest : String)
    (h1 : tag.data ≠ []) (h2 : tag.data.contains ']' = false)
    (h3 : tag ∉ (["from", "of", "msg", "sid", "wisher", "spread", "move"] : List String)) :
    simplifyBracketText ("[from]" ++ rest) =
      (if jsTrim rest = "" then "" else dropSourceKind (jsTrim rest)) ∧
    simplifyBracketText ("[of]" ++ rest) = "" ∧
    simplifyBracketText ("[msg]" ++ rest) = jsTrim rest ∧
    simplifyBracketText ("[sid]" ++ rest) =
      (if jsTrim rest = "" then "" else "side " ++ jsTrim rest) ∧
    simplifyBracketText ("[wisher]" ++ rest) =
      (if jsTrim rest = "" then "Wish" else "Wish from " ++ jsTrim rest) ∧
    simplifyBracketText ("[spread]" ++ rest) = "" ∧
    simplifyBracketText ("[move]" ++ rest) = jsTrim rest ∧
    simplifyBracketText ("[" ++ tag ++ "]" ++ rest) =
      (if jsTrim rest = "" then tag else jsTrim rest) := by
  have hne : ∀ (t : String), t.data ≠ [] → ("[" ++ t ++ "]" ++ rest) ≠ "" := by
    intro t _ hh
    have := congrArg String.data hh
    simp [String.data_append] at this
  have hknown : ∀ (t : String), t.data ≠ [] → t.data.contains ']' = false →
      simplifyBracketText ("[" ++ t ++ "]" ++ rest) =
        (let cleanRest := jsTrim rest
         if t = "from" then (if cleanRest = "" then "" else dropSourceKind cleanRest)
         else if t = "of" then ""
         else if t = "msg" then cleanRest
         else if t = "sid" then (if cleanRest = "" then "" else "side " ++ cleanRest)
         else if t = "wisher" then (if cleanRest = "" then "Wish" else "Wish from " ++ cleanRest)
         else if t = "spread" then ""
         else if t = "move" then cleanRest
         else (if cleanRest = "" then t else cleanRest)) := by
    intro t htne htc
    unfold simplifyBracketText
    rw [if_neg (hne t htne), bracketSplit_mk t rest htne htc]
  have hfrom := hknown "from" (by decide) (by decide)
  have hof := hknown "of" (by decide) (by decide)
  have hmsg := hknown "msg" (by decide) (by decide)
  have hsid := hknown "sid" (by decide) (by decide)
  have hwisher := hknown "wisher" (by decide) (by decide)
  have hspread := hknown "spread" (by decide) (by decide)
  have hmove := hknown "move" (by decide) (by decide)
  have hunk := hknown tag h1 h2
  simp only [List.mem_cons, List.mem_singleton, not_or] at h3
  obtain ⟨n1, n2, n3, n4, n5, n6, n7, _⟩ := h3
  refine ⟨?_, ?_, ?_, ?_, ?_, ?_, ?_, ?_⟩
  · rw [show ("[from]" ++ rest) = ("[" ++ "from" ++ "]" ++ rest) from rfl, hfrom]; simp
  · rw [show ("[of]" ++ rest) = ("[" ++ "of" ++ "]" ++ rest) from rfl, hof]; simp
  · rw [show ("[msg]" ++ rest) = ("[" ++ "msg" ++ "]" ++ rest) from rfl, hmsg]; simp
  · rw [show ("[sid]" ++ rest) = ("[" ++ "sid" ++ "]" ++ rest) from rfl, hsid]; simp
  · rw [show ("[wisher]" ++ rest) = ("[" ++ "wisher" ++ "]" ++ rest) from rfl, hwisher]; simp
  · rw [show ("[spread]" ++ rest) = ("[" ++ "spread" ++ "]" ++ rest) from rfl, hspread]; simp
  · rw [show ("[move]" ++ rest) = ("[" ++ "move" ++ "]" ++ rest) from rfl, hmove]; simp
  · rw [hunk]
    simp [n1, n2, n3, n4, n5, n6, n7]

theorem c4_bracket_table_witness :
    simplifyBracketText ("[from]" ++ " item: Leftovers") =
      (if jsTrim " item: Leftovers" = "" then "" else dropSourceKind (jsTrim " item: Leftovers")) ∧
    simplifyBracketText ("[of]" ++ " item: Leftovers") = "" ∧
    simplifyBracketText ("[msg]" ++ " item: Leftovers") = jsTrim " item: Leftovers" ∧
    simplifyBracketText ("[sid]" ++ " item: Leftovers") =
      (if jsTrim " item: Leftovers" = "" then "" else "side " ++ jsTrim " item: Leftovers") ∧
    simplifyBracketText ("[wisher]" ++ " item: Leftovers") =
      (if jsTrim " item: Leftovers" = "" then "Wish" else "Wish from " ++ jsTrim " item: Leftovers") ∧
    simplifyBracketText ("[spread]" ++ " item: Leftovers") = "" ∧
    simplifyBracketText ("[move]" ++ " item: Leftovers") = jsTrim " item: Leftovers" ∧
    simplifyBracketText ("[" ++ "boo" ++ "]" ++ " item: Leftovers") =
      (if jsTrim " item: Leftovers" = "" then "boo" else jsTrim " item: Leftovers") :=
  c4_bracket_table "boo" " item: Leftovers" (by decide) (by decide) (by decide)

theorem c8_loser_inference_witness :
    resolveLoser winnerOnlyCtx =
      some (if toId winnerOnlyCtx.winner = toIdS winnerOnlyCtx.players.p1
            then winnerOnlyCtx.players.p2 else winnerOnlyCtx.players.p1) :=
  c8_loser_inference winnerOnlyCtx (Or.inl rfl) ⟨"Ash", rfl, by decide⟩ (Or.inl (by decide))


/- ===== C9 ===== -/

theorem invB_congr (c1 c2 : ParseContext) (h1 : c1.turns = c2.turns)
    (h2 : c1.currentTurnIdx = c2.currentTurnIdx) : invB c1 = invB c2 := by
  unfold invB
  rw [h1, h2]

theorem turn0Leads_congr (c1 c2 : ParseContext) (h1 : c1.turns = c2.turns) :
    turn0Leads c1 = turn0Leads c2 := by
  unfold turn0Leads
  rw [h1]

theorem mapCT_pres (f : TurnSummary → TurnSummary) (hturn : ∀ t, (f t).turn = t.turn)
    (hlead : ∀ t, (f t).leadEntries = t.leadEntries) (ctx : ParseContext) :
    invB (mapCurrentTurn f ctx) = invB ctx ∧
    (mapCurrentTurn f ctx).leadPhase = ctx.leadPhase ∧
    turn0Leads (mapCurrentTurn f ctx) = turn0Leads ctx := by
  refine ⟨?_, rfl, ?_⟩
  · unfold invB mapCurrentTurn getCurrentTurn
    cases hts : ctx.turns with
    | nil => rfl
    | cons hd tl =>
      cases hidx : ctx.currentTurnIdx with
      | zero => simp [hturn]
      | succ n => simp
  · unfold turn0Leads mapCurrentTurn getCurrentTurn
    cases hts : ctx.turns with
    | nil => rfl
    | cons hd tl =>
      cases hidx : ctx.currentTurnIdx with
      | zero => simp [hlead]
      | succ n => simp

theorem mapCA_pres (f : ActionSummary → ActionSummary) (ctx : ParseContext) :
    invB (mapCurrentAction f ctx) = invB ctx ∧
    (mapCurrentAction f ctx).leadPhase = ctx.leadPhase ∧
    turn0Leads (mapCurrentAction f ctx) = turn0Leads ctx := by
  unfold mapCurrentAction
  cases hc : ctx.currentAction with
  | none => exact ⟨rfl, rfl, rfl⟩
  | some i => exact mapCT_pres (fun t => { t with actions := t.actions.set i (f (t.actions.getD i dummyAction)) }) (fun t => rfl) (fun t => rfl) ctx

theorem appendDE_pres (ctx : ParseContext) (d : DualFormat) (b : Bool) :
    invB (appendDetailEntry ctx d b) = invB ctx ∧
    (appendDetailEntry ctx d b).leadPhase = ctx.leadPhase ∧
    turn0Leads (appendDetailEntry ctx d b) = turn0Leads ctx := by
  unfold appendDetailEntry
  split
  · exact ⟨rfl, rfl, rfl⟩
  · split
    · exact mapCT_pres (fun t => { t with endEvents := t.endEvents ++ [d] }) (fun t => rfl) (fun t => rfl) ctx
    · exact mapCA_pres (fun a => { a with details := a.details ++ [d] }) ctx

theorem appendDS_pres (ctx : ParseContext) (s : String) (b : Bool) :
    invB (appendDetailStr ctx s b) = invB ctx ∧
    (appendDetailStr ctx s b).leadPhase = ctx.leadPhase ∧
    turn0Leads (appendDetailStr ctx s b) = turn0Leads ctx := by
  unfold appendDetailStr
  split
  · exact ⟨rfl, rfl, rfl⟩
  · split
    · exact mapCT_pres (fun t => { t with endEvents := t.endEvents ++ [makeDetail s] }) (fun t => rfl) (fun t => rfl) ctx
    · exact mapCA_pres (fun a => { a with details := a.details ++ [makeDetail s] }) ctx

theorem pushHE_pres (ctx : ParseContext) (s : String) :
    invB (pushHeaderEvent ctx s) = invB ctx ∧
    (pushHeaderEvent ctx s).leadPhase = ctx.leadPhase ∧
    turn0Leads (pushHeaderEvent ctx s) = turn0Leads ctx := by
  unfold pushHeaderEvent
  split
  · exact mapCT_pres (fun t => { t with headerEvents := t.headerEvents ++ [s] }) (fun t => rfl) (fun t => rfl) ctx
  · exact mapCT_pres (fun t => { t with endEvents := t.endEvents ++ [makeDetail s] }) (fun t => rfl) (fun t => rfl) ctx

theorem setCA_pres (ctx : ParseContext) (a : ActionSummary) :
    invB (setCurrentAction ctx a) = invB ctx ∧
    (setCurrentAction ctx a).leadPhase = ctx.leadPhase ∧
    turn0Leads (setCurrentAction ctx a) = turn0Leads ctx :=
  mapCT_pres (fun t => { t with actions := t.actions ++ [a] }) (fun t => rfl) (fun t => rfl) ctx

theorem addNote_pres (ctx : ParseContext) (r : Option String) (note : String) :
    invB (addNoteAction ctx r note) = invB ctx ∧
    (addNoteAction ctx r note).leadPhase = ctx.leadPhase ∧
    turn0Leads (addNoteAction ctx r note) = turn0Leads ctx :=
  setCA_pres ctx _

theorem flushPFE_pres (ctx : ParseContext) :
    invB (flushPendingFieldEnds ctx) = invB ctx ∧
    (flushPendingFieldEnds ctx).leadPhase = ctx.leadPhase ∧
    turn0Leads (flushPendingFieldEnds ctx) = turn0Leads ctx := by
  unfold flushPendingFieldEnds
  split
  · exact ⟨rfl, rfl, rfl⟩
  · exact mapCT_pres (fun t => { t with endEvents := t.endEvents ++ [makeDetail (joinSep "; " (ctx.pendingFieldEnds.map (fun e => e ++ " ends")))] }) (fun t => rfl) (fun t => rfl) ctx

theorem ensureCT_pres (ctx : ParseContext) (tn : JsNum) :
    (invB ctx = true → invB (ensureCurrentTurn ctx tn) = true) ∧
    (ensureCurrentTurn ctx tn).leadPhase = ctx.leadPhase ∧
    turn0Leads (ensureCurrentTurn ctx tn) = turn0Leads ctx := by
  obtain ⟨f1, f2, f3⟩ := flushPFE_pres ctx
  unfold ensureCurrentTurn
  split
  · exact ⟨fun h => h, rfl, rfl⟩
  · dsimp only
    refine ⟨?_, f2, ?_⟩
    · intro h
      rw [← f1] at h
      unfold invB at h ⊢
      dsimp only
      cases hts : (flushPendingFieldEnds ctx).turns with
      | nil => rw [hts] at h; simp at h
      | cons hd tl =>
        rw [hts] at h
        simp only [Bool.and_eq_true] at h ⊢
        exact ⟨by simp, h.2⟩
    · rw [← f3]
      unfold turn0Leads
      dsimp only
      cases hts : (flushPendingFieldEnds ctx).turns with
      | nil => rfl
      | cons hd tl => rfl


theorem pres_trans {a b c : ParseContext}
    (h1 : invB a = invB b ∧ a.leadPhase = b.leadPhase ∧ turn0Leads a = turn0Leads b)
    (h2 : invB b = invB c ∧ b.leadPhase = c.leadPhase ∧ turn0Leads b = turn0Leads c) :
    invB a = invB c ∧ a.leadPhase = c.leadPhase ∧ turn0Leads a = turn0Leads c :=
  ⟨h1.1.trans h2.1, h1.2.1.trans h2.2.1, h1.2.2.trans h2.2.2⟩

theorem detailFst_pres (ctx : ParseContext) (r body : String) (hb : Option String) :
    invB (detailWithIcon ctx r body hb).1 = invB ctx ∧
    (detailWithIcon ctx r body hb).1.leadPhase = ctx.leadPhase ∧
    turn0Leads (detailWithIcon ctx r body hb).1 = turn0Leads ctx := by
  obtain ⟨P, hP⟩ := detailWithIcon_fst ctx r body hb
  rw [hP]
  exact ⟨rfl, rfl, rfl⟩

theorem getOrCreateFst_pres (ctx : ParseContext) (r : String) (side : Side) (sp : String) :
    invB (getOrCreatePokemon ctx r side sp).1 = invB ctx ∧
    (getOrCreatePokemon ctx r side sp).1.leadPhase = ctx.leadPhase ∧
    turn0Leads (getOrCreatePokemon ctx r side sp).1 = turn0Leads ctx := by
  obtain ⟨P, hP⟩ := getOrCreatePokemon_fst ctx r side sp
  rw [hP]
  exact ⟨rfl, rfl, rfl⟩

theorem updActive_pres (c : ParseContext) (r : String) :
    invB (updateActivePosition c r) = invB c ∧
    (updateActivePosition c r).leadPhase = c.leadPhase ∧
    turn0Leads (updateActivePosition c r) = turn0Leads c := by
  unfold updateActivePosition
  split <;> exact ⟨rfl, rfl, rfl⟩

theorem updSpecies_pres (ctx : ParseContext) (r sp : String) (ctx' : ParseContext)
    (h : updatePokemonSpecies ctx r (some sp) = .ok ctx') :
    invB ctx' = invB ctx ∧ ctx'.leadPhase = ctx.leadPhase ∧ turn0Leads ctx' = turn0Leads ctx := by
  obtain ⟨c1, m, hupd, hlk, ht, hi, hca, hpb, hpf, hlp, hft⟩ := updatePokemonSpecies_ok ctx r sp
  rw [hupd] at h
  injection h with h2
  subst h2
  exact ⟨invB_congr _ _ ht hi, hlp, turn0Leads_congr _ _ ht⟩

theorem updSpecies_none (ctx : ParseContext) (r : String) :
    updatePokemonSpecies ctx r none = .error .typeError := by
  unfold updatePokemonSpecies
  dsimp only
  generalize getOrCreatePokemon ctx r (resolveSide r) (Option.getD none "Unknown") = G
  obtain ⟨cA, vm⟩ := G
  rfl

theorem addSpecies_pres (ctx : ParseContext) (side spo : Option String) (ctx' : ParseContext)
    (h : addSpecies ctx side spo = .ok ctx') :
    ctx'.turns = ctx.turns ∧ ctx'.currentTurnIdx = ctx.currentTurnIdx ∧
    ctx'.leadPhase = ctx.leadPhase := by
  unfold addSpecies at h
  cases spo with
  | none => exact Except.noConfusion h
  | some sp =>
    simp only [require, Bind.bind, Except.bind, pure, Except.pure] at h
    repeat' split at h
    all_goals
      first
        | exact Except.noConfusion h
        | (injection h with h2
           subst h2
           exact ⟨rfl, rfl, rfl⟩)

theorem foldDetail_pres (textOf : String → String) (targets : List String) :
    ∀ p : ParseContext × List DualFormat,
      invB (targets.foldl (fun acc targetRef =>
          match detailWithIcon acc.1 targetRef (textOf targetRef) none with
          | (c, d) => (c, acc.2 ++ [d])) p).1 = invB p.1 ∧
      (targets.foldl (fun acc targetRef =>
          match detailWithIcon acc.1 targetRef (textOf targetRef) none with
          | (c, d) => (c, acc.2 ++ [d])) p).1.leadPhase = p.1.leadPhase ∧
      turn0Leads (targets.foldl (fun acc targetRef =>
          match detailWithIcon acc.1 targetRef (textOf targetRef) none with
          | (c, d) => (c, acc.2 ++ [d])) p).1 = turn0Leads p.1 := by
  induction targets with
  | nil => exact fun p => ⟨rfl, rfl, rfl⟩
  | cons hd tl ih =>
    intro p
    rw [List.foldl_cons]
    have hstep := detailFst_pres p.1 hd (textOf hd) none
    have hih := ih ((detailWithIcon p.1 hd (textOf hd) none).1, p.2 ++ [(detailWithIcon p.1 hd (textOf hd) none).2])
    exact pres_trans hih hstep


attribute [irreducible] jsTrim jsToLower jsToUpper toId toIdS toIconId toIconIdS containsSub
attribute [irreducible] joinSep jsWords parseHPStatus formatHPStatus prettifyMove simplifyBracketText
attribute [irreducible] parseExtras formatExtras jsNumber jsShow jsOr2 jsOrOptS parsePokemonRef
attribute [irreducible] getPokemonDisplayName iconHTML escapeHtml makeDetail normalizeFieldName
attribute [irreducible] normalizeWeatherName matchAfterTrim dropMoveColon isEndOfTurnSource
attribute [irreducible] strStartsWith strEndsWith truthy hasSpeciesOnBothSides jsSetAdd
attribute [irreducible] combineDetails consolidateBoostDetails isBoostDetail dedupKeepFirst

theorem finalizePAB_pres (ctx : ParseContext) :
    invB (finalizePendingAbilityBoost ctx) = invB ctx ∧
    (finalizePendingAbilityBoost ctx).leadPhase = ctx.leadPhase ∧
    turn0Leads (finalizePendingAbilityBoost ctx) = turn0Leads ctx := by
  unfold finalizePendingAbilityBoost
  cases hpab : ctx.pendingAbilityBoost with
  | none => exact ⟨rfl, rfl, rfl⟩
  | some pab =>
    dsimp only
    obtain ⟨g1, g2, g3⟩ := foldDetail_pres
      (fun targetRef => joinSep ", " ((pab.boosts.filter (fun b => b.ref == targetRef)).map
        (fun b => b.direction ++ b.amount.toDisplay ++ " " ++ b.stat)))
      (dedupKeepFirst (pab.boosts.map (·.ref))) (ctx, [])
    refine ⟨?_, ?_, ?_⟩
    · split
      · exact g1
      · split
        · exact ((pushHE_pres _ _).1).trans g1
        · exact ((appendDE_pres _ _ _).1).trans g1
    · split
      · exact g2
      · split
        · exact ((pushHE_pres _ _).2.1).trans g2
        · exact ((appendDE_pres _ _ _).2.1).trans g2
    · split
      · exact g3
      · split
        · exact ((pushHE_pres _ _).2.2).trans g3
        · exact ((appendDE_pres _ _ _).2.2).trans g3


theorem annMerge_pres (ctx : ParseContext) (ability refRaw tl2 : String) :
    invB (abilityAnnounceMerge ctx ability refRaw tl2) = invB ctx ∧
    (abilityAnnounceMerge ctx ability refRaw tl2).leadPhase = ctx.leadPhase ∧
    turn0Leads (abilityAnnounceMerge ctx ability refRaw tl2) = turn0Leads ctx := by
  unfold abilityAnnounceMerge
  dsimp only
  split
  · exact mapCA_pres _ _
  · exact pushHE_pres _ _

theorem fieldDef_pres (ctx : ParseContext) (fieldName : String) :
    invB (fieldStartDefault ctx fieldName) = invB ctx ∧
    (fieldStartDefault ctx fieldName).leadPhase = ctx.leadPhase ∧
    turn0Leads (fieldStartDefault ctx fieldName) = turn0Leads ctx := by
  unfold fieldStartDefault
  dsimp only
  split
  · exact ⟨rfl, rfl, rfl⟩
  · exact pushHE_pres _ _

theorem pres12_of (ctx ctx' : ParseContext)
    (t : invB ctx' = invB ctx ∧ ctx'.leadPhase = ctx.leadPhase ∧ turn0Leads ctx' = turn0Leads ctx) :
    (invB ctx = true → invB ctx' = true) ∧
    (ctx.leadPhase = false → ctx'.leadPhase = false ∧ turn0Leads ctx' = turn0Leads ctx) :=
  ⟨fun hi => t.1.trans hi, fun hlp => ⟨t.2.1.trans hlp, t.2.2⟩⟩

theorem pres12_turn (ctx ctx' : ParseContext)
    (t : (invB ctx = true → invB ctx' = true) ∧ ctx'.leadPhase = false ∧ turn0Leads ctx' = turn0Leads ctx) :
    (invB ctx = true → invB ctx' = true) ∧
    (ctx.leadPhase = false → ctx'.leadPhase = false ∧ turn0Leads ctx' = turn0Leads ctx) :=
  ⟨t.1, fun _ => ⟨t.2.1, t.2.2⟩⟩

theorem pres12_switch (ctx ctx' : ParseContext)
    (t : invB ctx' = invB ctx ∧ ctx'.leadPhase = ctx.leadPhase ∧
      (ctx.leadPhase = false → turn0Leads ctx' = turn0Leads ctx)) :
    (invB ctx = true → invB ctx' = true) ∧
    (ctx.leadPhase = false → ctx'.leadPhase = false ∧ turn0Leads ctx' = turn0Leads ctx) :=
  ⟨fun hi => t.1.trans hi, fun hlp => ⟨t.2.1.trans hlp, t.2.2 hlp⟩⟩

theorem player_pres (ctx : ParseContext) (parts : List String) :
    invB (handlePlayer ctx parts) = invB ctx ∧
    (handlePlayer ctx parts).leadPhase = ctx.leadPhase ∧
    turn0Leads (handlePlayer ctx parts) = turn0Leads ctx := by
  unfold handlePlayer
  dsimp only
  repeat' split
  all_goals exact ⟨rfl, rfl, rfl⟩

theorem format_pres (ctx : ParseContext) (parts : List String) :
    invB (handleFormat ctx parts) = invB ctx ∧
    (handleFormat ctx parts).leadPhase = ctx.leadPhase ∧
    turn0Leads (handleFormat ctx parts) = turn0Leads ctx := by
  unfold handleFormat
  repeat' split
  all_goals exact ⟨rfl, rfl, rfl⟩

theorem win_pres (ctx : ParseContext) (parts : List String) :
    invB (handleWin ctx parts) = invB ctx ∧
    (handleWin ctx parts).leadPhase = ctx.leadPhase ∧
    turn0Leads (handleWin ctx parts) = turn0Leads ctx :=
  ⟨rfl, rfl, rfl⟩

theorem loss_pres (ctx : ParseContext) (parts : List String) :
    invB (handleLoss ctx parts) = invB ctx ∧
    (handleLoss ctx parts).leadPhase = ctx.leadPhase ∧
    turn0Leads (handleLoss ctx parts) = turn0Leads ctx :=
  ⟨rfl, rfl, rfl⟩

theorem terrain_pres (ctx : ParseContext) (parts : List String) :
    invB (handleTerrain ctx parts) = invB ctx ∧
    (handleTerrain ctx parts).leadPhase = ctx.leadPhase ∧
    turn0Leads (handleTerrain ctx parts) = turn0Leads ctx :=
  pushHE_pres _ _

theorem message_pres (ctx : ParseContext) (parts : List String) :
    invB (handleMessage ctx parts) = invB ctx ∧
    (handleMessage ctx parts).leadPhase = ctx.leadPhase ∧
    turn0Leads (handleMessage ctx parts) = turn0Leads ctx := by
  unfold handleMessage
  dsimp only
  repeat' split
  all_goals
    first
      | exact ⟨rfl, rfl, rfl⟩
      | exact appendDS_pres _ _ _

theorem turn_pres (ctx : ParseContext) (parts : List String) :
    (invB ctx = true → invB (handleTurn ctx parts) = true) ∧
    (handleTurn ctx parts).leadPhase = false ∧
    turn0Leads (handleTurn ctx parts) = turn0Leads ctx := by
  obtain ⟨p1, p2, p3⟩ := finalizePAB_pres ctx
  unfold handleTurn
  dsimp only
  obtain ⟨e1, e2, e3⟩ := ensureCT_pres
    { finalizePendingAbilityBoost ctx with leadPhase := false } (jsNumber (parts.get? 1))
  refine ⟨?_, ?_, ?_⟩
  · intro hi
    have hF : invB ({ finalizePendingAbilityBoost ctx with leadPhase := false } : ParseContext) = true := by
      rw [show invB ({ finalizePendingAbilityBoost ctx with leadPhase := false } : ParseContext) =
        invB (finalizePendingAbilityBoost ctx) from rfl, p1]
      exact hi
    exact e1 hF
  · exact e2
  · exact e3.trans p3
theorem cant_pres (ctx : ParseContext) (parts : List String) (ctx' : ParseContext)
    (h : handleCant ctx parts = .ok ctx') :
    invB ctx' = invB ctx ∧ ctx'.leadPhase = ctx.leadPhase ∧ turn0Leads ctx' = turn0Leads ctx := by
  unfold handleCant at h
  simp only [require, Bind.bind, Except.bind, pure, Except.pure] at h
  repeat' split at h
  all_goals
    first
      | exact Except.noConfusion h
      | (injection h with h2
         subst h2
         first
           | exact pres_trans (appendDE_pres _ _ _) (detailFst_pres _ _ _ _)
           | exact pres_trans (appendDE_pres _ _ _) (pres_trans (detailFst_pres _ _ _ _) (getOrCreateFst_pres _ _ _ _))
           | exact pres_trans (appendDE_pres _ _ _) (pres_trans (detailFst_pres _ _ _ _) (pres_trans (flushPFE_pres _) (getOrCreateFst_pres _ _ _ _)))
           | exact pres_trans (setCA_pres _ _) (pres_trans (getOrCreateFst_pres _ _ _ _) (finalizePAB_pres _))
           | exact mapCA_pres _ _
           | exact addNote_pres _ _ _
           | exact setCA_pres _ _
           | exact pushHE_pres _ _
           | exact appendDE_pres _ _ _
           | exact appendDS_pres _ _ _
           | exact annMerge_pres _ _ _ _
           | exact fieldDef_pres _ _
           | exact finalizePAB_pres _
           | exact ⟨rfl, rfl, rfl⟩)
theorem damage_pres (ctx : ParseContext) (parts : List String) (ctx' : ParseContext)
    (h : handleDamage ctx parts = .ok ctx') :
    invB ctx' = invB ctx ∧ ctx'.leadPhase = ctx.leadPhase ∧ turn0Leads ctx' = turn0Leads ctx := by
  unfold handleDamage at h
  simp only [require, Bind.bind, Except.bind, pure, Except.pure] at h
  repeat' split at h
  all_goals
    first
      | exact Except.noConfusion h
      | (injection h with h2
         subst h2
         first
           | exact pres_trans (appendDE_pres _ _ _) (detailFst_pres _ _ _ _)
           | exact pres_trans (appendDE_pres _ _ _) (pres_trans (detailFst_pres _ _ _ _) (getOrCreateFst_pres _ _ _ _))
           | exact pres_trans (appendDE_pres _ _ _) (pres_trans (detailFst_pres _ _ _ _) (pres_trans (flushPFE_pres _) (getOrCreateFst_pres _ _ _ _)))
           | exact pres_trans (setCA_pres _ _) (pres_trans (getOrCreateFst_pres _ _ _ _) (finalizePAB_pres _))
           | exact mapCA_pres _ _
           | exact addNote_pres _ _ _
           | exact setCA_pres _ _
           | exact pushHE_pres _ _
           | exact appendDE_pres _ _ _
           | exact appendDS_pres _ _ _
           | exact annMerge_pres _ _ _ _
           | exact fieldDef_pres _ _
           | exact finalizePAB_pres _
           | exact ⟨rfl, rfl, rfl⟩)
theorem boost_pres (ctx : ParseContext) (tag : String) (parts : List String) (ctx' : ParseContext)
    (h : handleBoost ctx tag parts = .ok ctx') :
    invB ctx' = invB ctx ∧ ctx'.leadPhase = ctx.leadPhase ∧ turn0Leads ctx' = turn0Leads ctx := by
  unfold handleBoost at h
  simp only [require, Bind.bind, Except.bind, pure, Except.pure] at h
  repeat' split at h
  all_goals
    first
      | exact Except.noConfusion h
      | (injection h with h2
         subst h2
         first
           | exact pres_trans (appendDE_pres _ _ _) (detailFst_pres _ _ _ _)
           | exact pres_trans (appendDE_pres _ _ _) (pres_trans (detailFst_pres _ _ _ _) (getOrCreateFst_pres _ _ _ _))
           | exact pres_trans (appendDE_pres _ _ _) (pres_trans (detailFst_pres _ _ _ _) (pres_trans (flushPFE_pres _) (getOrCreateFst_pres _ _ _ _)))
           | exact pres_trans (setCA_pres _ _) (pres_trans (getOrCreateFst_pres _ _ _ _) (finalizePAB_pres _))
           | exact mapCA_pres _ _
           | exact addNote_pres _ _ _
           | exact setCA_pres _ _
           | exact pushHE_pres _ _
           | exact appendDE_pres _ _ _
           | exact appendDS_pres _ _ _
           | exact annMerge_pres _ _ _ _
           | exact fieldDef_pres _ _
           | exact finalizePAB_pres _
           | exact ⟨rfl, rfl, rfl⟩)
theorem status_pres (ctx : ParseContext) (parts : List String) (ctx' : ParseContext)
    (h : handleStatus ctx parts = .ok ctx') :
    invB ctx' = invB ctx ∧ ctx'.leadPhase = ctx.leadPhase ∧ turn0Leads ctx' = turn0Leads ctx := by
  unfold handleStatus at h
  simp only [require, Bind.bind, Except.bind, pure, Except.pure] at h
  repeat' split at h
  all_goals
    first
      | exact Except.noConfusion h
      | (injection h with h2
         subst h2
         first
           | exact pres_trans (appendDE_pres _ _ _) (detailFst_pres _ _ _ _)
           | exact pres_trans (appendDE_pres _ _ _) (pres_trans (detailFst_pres _ _ _ _) (getOrCreateFst_pres _ _ _ _))
           | exact pres_trans (appendDE_pres _ _ _) (pres_trans (detailFst_pres _ _ _ _) (pres_trans (flushPFE_pres _) (getOrCreateFst_pres _ _ _ _)))
           | exact pres_trans (setCA_pres _ _) (pres_trans (getOrCreateFst_pres _ _ _ _) (finalizePAB_pres _))
           | exact mapCA_pres _ _
           | exact addNote_pres _ _ _
           | exact setCA_pres _ _
           | exact pushHE_pres _ _
           | exact appendDE_pres _ _ _
           | exact appendDS_pres _ _ _
           | exact annMerge_pres _ _ _ _
           | exact fieldDef_pres _ _
           | exact finalizePAB_pres _
           | exact ⟨rfl, rfl, rfl⟩)
theorem cure_pres (ctx : ParseContext) (parts : List String) (ctx' : ParseContext)
    (h : handleCureStatus ctx parts = .ok ctx') :
    invB ctx' = invB ctx ∧ ctx'.leadPhase = ctx.leadPhase ∧ turn0Leads ctx' = turn0Leads ctx := by
  unfold handleCureStatus at h
  simp only [require, Bind.bind, Except.bind, pure, Except.pure] at h
  repeat' split at h
  all_goals
    first
      | exact Except.noConfusion h
      | (injection h with h2
         subst h2
         first
           | exact pres_trans (appendDE_pres _ _ _) (detailFst_pres _ _ _ _)
           | exact pres_trans (appendDE_pres _ _ _) (pres_trans (detailFst_pres _ _ _ _) (getOrCreateFst_pres _ _ _ _))
           | exact pres_trans (appendDE_pres _ _ _) (pres_trans (detailFst_pres _ _ _ _) (pres_trans (flushPFE_pres _) (getOrCreateFst_pres _ _ _ _)))
           | exact pres_trans (setCA_pres _ _) (pres_trans (getOrCreateFst_pres _ _ _ _) (finalizePAB_pres _))
           | exact mapCA_pres _ _
           | exact addNote_pres _ _ _
           | exact setCA_pres _ _
           | exact pushHE_pres _ _
           | exact appendDE_pres _ _ _
           | exact appendDS_pres _ _ _
           | exact annMerge_pres _ _ _ _
           | exact fieldDef_pres _ _
           | exact finalizePAB_pres _
           | exact ⟨rfl, rfl, rfl⟩)
theorem ability_pres (ctx : ParseContext) (parts : List String) (ctx' : ParseContext)
    (h : handleAbility ctx parts = .ok ctx') :
    invB ctx' = invB ctx ∧ ctx'.leadPhase = ctx.leadPhase ∧ turn0Leads ctx' = turn0Leads ctx := by
  unfold handleAbility at h
  simp only [require, Bind.bind, Except.bind, pure, Except.pure] at h
  repeat' split at h
  all_goals
    first
      | exact Except.noConfusion h
      | (injection h with h2
         subst h2
         first
           | exact finalizePAB_pres _
           | exact pushHE_pres _ _
           | exact appendDE_pres _ _ _)
theorem item_pres (ctx : ParseContext) (label : String) (parts : List String) (ctx' : ParseContext)
    (h : handleItem ctx label parts = .ok ctx') :
    invB ctx' = invB ctx ∧ ctx'.leadPhase = ctx.leadPhase ∧ turn0Leads ctx' = turn0Leads ctx := by
  unfold handleItem at h
  simp only [require, Bind.bind, Except.bind, pure, Except.pure] at h
  repeat' split at h
  all_goals
    first
      | exact Except.noConfusion h
      | (injection h with h2
         subst h2
         first
           | exact pres_trans (appendDE_pres _ _ _) (detailFst_pres _ _ _ _)
           | exact pres_trans (appendDE_pres _ _ _) (pres_trans (detailFst_pres _ _ _ _) (getOrCreateFst_pres _ _ _ _))
           | exact pres_trans (appendDE_pres _ _ _) (pres_trans (detailFst_pres _ _ _ _) (pres_trans (flushPFE_pres _) (getOrCreateFst_pres _ _ _ _)))
           | exact pres_trans (setCA_pres _ _) (pres_trans (getOrCreateFst_pres _ _ _ _) (finalizePAB_pres _))
           | exact mapCA_pres _ _
           | exact addNote_pres _ _ _
           | exact setCA_pres _ _
           | exact pushHE_pres _ _
           | exact appendDE_pres _ _ _
           | exact appendDS_pres _ _ _
           | exact annMerge_pres _ _ _ _
           | exact fieldDef_pres _ _
           | exact finalizePAB_pres _
           | exact ⟨rfl, rfl, rfl⟩)
theorem fieldstart_pres (ctx : ParseContext) (parts : List String) (ctx' : ParseContext)
    (h : handleFieldStart ctx parts = .ok ctx') :
    invB ctx' = invB ctx ∧ ctx'.leadPhase = ctx.leadPhase ∧ turn0Leads ctx' = turn0Leads ctx := by
  unfold handleFieldStart at h
  simp only [require, Bind.bind, Except.bind, pure, Except.pure] at h
  repeat' split at h
  all_goals
    first
      | exact Except.noConfusion h
      | (injection h with h2
         subst h2
         first
           | exact annMerge_pres _ _ _ _
           | exact fieldDef_pres _ _)
theorem fieldend_pres (ctx : ParseContext) (parts : List String) (ctx' : ParseContext)
    (h : handleFieldEnd ctx parts = .ok ctx') :
    invB ctx' = invB ctx ∧ ctx'.leadPhase = ctx.leadPhase ∧ turn0Leads ctx' = turn0Leads ctx := by
  unfold handleFieldEnd at h
  simp only [require, Bind.bind, Except.bind, pure, Except.pure] at h
  repeat' split at h
  all_goals
    first
      | exact Except.noConfusion h
      | (injection h with h2
         subst h2
         first
           | exact pres_trans (appendDE_pres _ _ _) (detailFst_pres _ _ _ _)
           | exact pres_trans (appendDE_pres _ _ _) (pres_trans (detailFst_pres _ _ _ _) (getOrCreateFst_pres _ _ _ _))
           | exact pres_trans (appendDE_pres _ _ _) (pres_trans (detailFst_pres _ _ _ _) (pres_trans (flushPFE_pres _) (getOrCreateFst_pres _ _ _ _)))
           | exact pres_trans (setCA_pres _ _) (pres_trans (getOrCreateFst_pres _ _ _ _) (finalizePAB_pres _))
           | exact mapCA_pres _ _
           | exact addNote_pres _ _ _
           | exact setCA_pres _ _
           | exact pushHE_pres _ _
           | exact appendDE_pres _ _ _
           | exact appendDS_pres _ _ _
           | exact annMerge_pres _ _ _ _
           | exact fieldDef_pres _ _
           | exact finalizePAB_pres _
           | exact ⟨rfl, rfl, rfl⟩)
theorem weather_pres (ctx : ParseContext) (parts : List String) (ctx' : ParseContext)
    (h : handleWeather ctx parts = .ok ctx') :
    invB ctx' = invB ctx ∧ ctx'.leadPhase = ctx.leadPhase ∧ turn0Leads ctx' = turn0Leads ctx := by
  unfold handleWeather at h
  simp only [require, Bind.bind, Except.bind, pure, Except.pure] at h
  repeat' split at h
  all_goals
    first
      | exact Except.noConfusion h
      | (injection h with h2
         subst h2
         first
           | exact pushHE_pres _ _
           | exact annMerge_pres _ _ _ _
           | exact ⟨rfl, rfl, rfl⟩)
theorem sidestart_pres (ctx : ParseContext) (parts : List String) (ctx' : ParseContext)
    (h : handleSideStart ctx parts = .ok ctx') :
    invB ctx' = invB ctx ∧ ctx'.leadPhase = ctx.leadPhase ∧ turn0Leads ctx' = turn0Leads ctx := by
  unfold handleSideStart at h
  simp only [require, Bind.bind, Except.bind, pure, Except.pure] at h
  repeat' split at h
  all_goals
    first
      | exact Except.noConfusion h
      | (injection h with h2
         subst h2
         first
           | exact pres_trans (appendDE_pres _ _ _) (detailFst_pres _ _ _ _)
           | exact pres_trans (appendDE_pres _ _ _) (pres_trans (detailFst_pres _ _ _ _) (getOrCreateFst_pres _ _ _ _))
           | exact pres_trans (appendDE_pres _ _ _) (pres_trans (detailFst_pres _ _ _ _) (pres_trans (flushPFE_pres _) (getOrCreateFst_pres _ _ _ _)))
           | exact pres_trans (setCA_pres _ _) (pres_trans (getOrCreateFst_pres _ _ _ _) (finalizePAB_pres _))
           | exact mapCA_pres _ _
           | exact addNote_pres _ _ _
           | exact setCA_pres _ _
           | exact pushHE_pres _ _
           | exact appendDE_pres _ _ _
           | exact appendDS_pres _ _ _
           | exact annMerge_pres _ _ _ _
           | exact fieldDef_pres _ _
           | exact finalizePAB_pres _
           | exact ⟨rfl, rfl, rfl⟩)
theorem sideend_pres (ctx : ParseContext) (parts : List String) (ctx' : ParseContext)
    (h : handleSideEnd ctx parts = .ok ctx') :
    invB ctx' = invB ctx ∧ ctx'.leadPhase = ctx.leadPhase ∧ turn0Leads ctx' = turn0Leads ctx := by
  unfold handleSideEnd at h
  simp only [require, Bind.bind, Except.bind, pure, Except.pure] at h
  repeat' split at h
  all_goals
    first
      | exact Except.noConfusion h
      | (injection h with h2
         subst h2
         first
           | exact pushHE_pres _ _
           | exact ⟨rfl, rfl, rfl⟩)
theorem singleturn_pres (ctx : ParseContext) (parts : List String) (ctx' : ParseContext)
    (h : handleSingleTurn ctx parts = .ok ctx') :
    invB ctx' = invB ctx ∧ ctx'.leadPhase = ctx.leadPhase ∧ turn0Leads ctx' = turn0Leads ctx := by
  unfold handleSingleTurn at h
  simp only [require, Bind.bind, Except.bind, pure, Except.pure] at h
  repeat' split at h
  all_goals
    first
      | exact Except.noConfusion h
      | (injection h with h2
         subst h2
         first
           | exact pres_trans (appendDE_pres _ _ _) (detailFst_pres _ _ _ _)
           | exact pres_trans (appendDE_pres _ _ _) (pres_trans (detailFst_pres _ _ _ _) (getOrCreateFst_pres _ _ _ _))
           | exact pres_trans (appendDE_pres _ _ _) (pres_trans (detailFst_pres _ _ _ _) (pres_trans (flushPFE_pres _) (getOrCreateFst_pres _ _ _ _)))
           | exact pres_trans (setCA_pres _ _) (pres_trans (getOrCreateFst_pres _ _ _ _) (finalizePAB_pres _))
           | exact mapCA_pres _ _
           | exact addNote_pres _ _ _
           | exact setCA_pres _ _
           | exact pushHE_pres _ _
           | exact appendDE_pres _ _ _
           | exact appendDS_pres _ _ _
           | exact annMerge_pres _ _ _ _
           | exact fieldDef_pres _ _
           | exact finalizePAB_pres _
           | exact ⟨rfl, rfl, rfl⟩)
theorem activate_pres (ctx : ParseContext) (parts : List String) (ctx' : ParseContext)
    (h : handleActivate ctx parts = .ok ctx') :
    invB ctx' = invB ctx ∧ ctx'.leadPhase = ctx.leadPhase ∧ turn0Leads ctx' = turn0Leads ctx := by
  unfold handleActivate at h
  simp only [require, Bind.bind, Except.bind, pure, Except.pure] at h
  repeat' split at h
  all_goals
    first
      | exact Except.noConfusion h
      | (injection h with h2
         subst h2
         first
           | exact pres_trans (appendDE_pres _ _ _) (detailFst_pres _ _ _ _)
           | exact pres_trans (appendDE_pres _ _ _) (pres_trans (detailFst_pres _ _ _ _) (getOrCreateFst_pres _ _ _ _))
           | exact pres_trans (appendDE_pres _ _ _) (pres_trans (detailFst_pres _ _ _ _) (pres_trans (flushPFE_pres _) (getOrCreateFst_pres _ _ _ _)))
           | exact pres_trans (setCA_pres _ _) (pres_trans (getOrCreateFst_pres _ _ _ _) (finalizePAB_pres _))
           | exact mapCA_pres _ _
           | exact addNote_pres _ _ _
           | exact setCA_pres _ _
           | exact pushHE_pres _ _
           | exact appendDE_pres _ _ _
           | exact appendDS_pres _ _ _
           | exact annMerge_pres _ _ _ _
           | exact fieldDef_pres _ _
           | exact finalizePAB_pres _
           | exact ⟨rfl, rfl, rfl⟩)
theorem fail_pres (ctx : ParseContext) (parts : List String) (ctx' : ParseContext)
    (h : handleFail ctx parts = .ok ctx') :
    invB ctx' = invB ctx ∧ ctx'.leadPhase = ctx.leadPhase ∧ turn0Leads ctx' = turn0Leads ctx := by
  unfold handleFail at h
  simp only [require, Bind.bind, Except.bind, pure, Except.pure] at h
  repeat' split at h
  all_goals
    first
      | exact Except.noConfusion h
      | (injection h with h2
         subst h2
         first
           | exact pres_trans (appendDE_pres _ _ _) (detailFst_pres _ _ _ _)
           | exact pres_trans (appendDE_pres _ _ _) (pres_trans (detailFst_pres _ _ _ _) (getOrCreateFst_pres _ _ _ _))
           | exact pres_trans (appendDE_pres _ _ _) (pres_trans (detailFst_pres _ _ _ _) (pres_trans (flushPFE_pres _) (getOrCreateFst_pres _ _ _ _)))
           | exact pres_trans (setCA_pres _ _) (pres_trans (getOrCreateFst_pres _ _ _ _) (finalizePAB_pres _))
           | exact mapCA_pres _ _
           | exact addNote_pres _ _ _
           | exact setCA_pres _ _
           | exact pushHE_pres _ _
           | exact appendDE_pres _ _ _
           | exact appendDS_pres _ _ _
           | exact annMerge_pres _ _ _ _
           | exact fieldDef_pres _ _
           | exact finalizePAB_pres _
           | exact ⟨rfl, rfl, rfl⟩)
theorem miss_pres (ctx : ParseContext) (parts : List String) (ctx' : ParseContext)
    (h : handleMiss ctx parts = .ok ctx') :
    invB ctx' = invB ctx ∧ ctx'.leadPhase = ctx.leadPhase ∧ turn0Leads ctx' = turn0Leads ctx := by
  unfold handleMiss at h
  simp only [require, Bind.bind, Except.bind, pure, Except.pure] at h
  repeat' split at h
  all_goals
    first
      | exact Except.noConfusion h
      | (injection h with h2
         subst h2
         first
           | exact pres_trans (appendDE_pres _ _ _) (detailFst_pres _ _ _ _)
           | exact pres_trans (appendDE_pres _ _ _) (pres_trans (detailFst_pres _ _ _ _) (getOrCreateFst_pres _ _ _ _))
           | exact pres_trans (appendDE_pres _ _ _) (pres_trans (detailFst_pres _ _ _ _) (pres_trans (flushPFE_pres _) (getOrCreateFst_pres _ _ _ _)))
           | exact pres_trans (setCA_pres _ _) (pres_trans (getOrCreateFst_pres _ _ _ _) (finalizePAB_pres _))
           | exact mapCA_pres _ _
           | exact addNote_pres _ _ _
           | exact setCA_pres _ _
           | exact pushHE_pres _ _
           | exact appendDE_pres _ _ _
           | exact appendDS_pres _ _ _
           | exact annMerge_pres _ _ _ _
           | exact fieldDef_pres _ _
           | exact finalizePAB_pres _
           | exact ⟨rfl, rfl, rfl⟩)
theorem immune_pres (ctx : ParseContext) (parts : List String) (ctx' : ParseContext)
    (h : handleImmune ctx parts = .ok ctx') :
    invB ctx' = invB ctx ∧ ctx'.leadPhase = ctx.leadPhase ∧ turn0Leads ctx' = turn0Leads ctx := by
  unfold handleImmune at h
  simp only [require, Bind.bind, Except.bind, pure, Except.pure] at h
  repeat' split at h
  all_goals
    first
      | exact Except.noConfusion h
      | (injection h with h2
         subst h2
         first
           | exact pres_trans (appendDE_pres _ _ _) (detailFst_pres _ _ _ _)
           | exact pres_trans (appendDE_pres _ _ _) (pres_trans (detailFst_pres _ _ _ _) (getOrCreateFst_pres _ _ _ _))
           | exact pres_trans (appendDE_pres _ _ _) (pres_trans (detailFst_pres _ _ _ _) (pres_trans (flushPFE_pres _) (getOrCreateFst_pres _ _ _ _)))
           | exact pres_trans (setCA_pres _ _) (pres_trans (getOrCreateFst_pres _ _ _ _) (finalizePAB_pres _))
           | exact mapCA_pres _ _
           | exact addNote_pres _ _ _
           | exact setCA_pres _ _
           | exact pushHE_pres _ _
           | exact appendDE_pres _ _ _
           | exact appendDS_pres _ _ _
           | exact annMerge_pres _ _ _ _
           | exact fieldDef_pres _ _
           | exact finalizePAB_pres _
           | exact ⟨rfl, rfl, rfl⟩)
theorem faint_pres (ctx : ParseContext) (parts : List String) (ctx' : ParseContext)
    (h : handleFaint ctx parts = .ok ctx') :
    invB ctx' = invB ctx ∧ ctx'.leadPhase = ctx.leadPhase ∧ turn0Leads ctx' = turn0Leads ctx := by
  unfold handleFaint at h
  simp only [require, Bind.bind, Except.bind, pure, Except.pure] at h
  repeat' split at h
  all_goals
    first
      | exact Except.noConfusion h
      | (injection h with h2
         subst h2
         first
           | exact pres_trans (appendDE_pres _ _ _) (detailFst_pres _ _ _ _)
           | exact pres_trans (appendDE_pres _ _ _) (pres_trans (detailFst_pres _ _ _ _) (getOrCreateFst_pres _ _ _ _))
           | exact pres_trans (appendDE_pres _ _ _) (pres_trans (detailFst_pres _ _ _ _) (pres_trans (flushPFE_pres _) (getOrCreateFst_pres _ _ _ _)))
           | exact pres_trans (setCA_pres _ _) (pres_trans (getOrCreateFst_pres _ _ _ _) (finalizePAB_pres _))
           | exact mapCA_pres _ _
           | exact addNote_pres _ _ _
           | exact setCA_pres _ _
           | exact pushHE_pres _ _
           | exact appendDE_pres _ _ _
           | exact appendDS_pres _ _ _
           | exact annMerge_pres _ _ _ _
           | exact fieldDef_pres _ _
           | exact finalizePAB_pres _
           | exact ⟨rfl, rfl, rfl⟩)
theorem tera_pres (ctx : ParseContext) (parts : List String) (ctx' : ParseContext)
    (h : handleTerastallize ctx parts = .ok ctx') :
    invB ctx' = invB ctx ∧ ctx'.leadPhase = ctx.leadPhase ∧ turn0Leads ctx' = turn0Leads ctx := by
  unfold handleTerastallize at h
  simp only [require, Bind.bind, Except.bind, pure, Except.pure] at h
  repeat' split at h
  all_goals
    first
      | exact Except.noConfusion h
      | (injection h with h2
         subst h2
         first
           | exact pushHE_pres _ _)
theorem move_pres (ctx : ParseContext) (parts : List String) (ctx' : ParseContext)
    (h : handleMove ctx parts = .ok ctx') :
    invB ctx' = invB ctx ∧ ctx'.leadPhase = ctx.leadPhase ∧ turn0Leads ctx' = turn0Leads ctx := by
  unfold handleMove at h
  simp only [require, Bind.bind, Except.bind, pure, Except.pure] at h
  repeat' split at h
  all_goals
    first
      | exact Except.noConfusion h
      | (injection h with h2
         subst h2
         first
           | exact pres_trans (setCA_pres _ _) (pres_trans (getOrCreateFst_pres _ _ _ _) (finalizePAB_pres _)))
theorem poke_pres (ctx : ParseContext) (parts : List String) (ctx' : ParseContext)
    (h : handlePoke ctx parts = .ok ctx') :
    invB ctx' = invB ctx ∧ ctx'.leadPhase = ctx.leadPhase ∧ turn0Leads ctx' = turn0Leads ctx := by
  unfold handlePoke at h
  simp only [require, Bind.bind, Except.bind, pure, Except.pure] at h
  split at h
  · exact Except.noConfusion h
  · obtain ⟨t1, t2, t3⟩ := addSpecies_pres _ _ _ _ h
    exact ⟨invB_congr _ _ t1 t2, t3, turn0Leads_congr _ _ t1⟩

theorem forme_pres (ctx : ParseContext) (parts : List String) (ctx' : ParseContext)
    (h : handleFormeChange ctx parts = .ok ctx') :
    invB ctx' = invB ctx ∧ ctx'.leadPhase = ctx.leadPhase ∧ turn0Leads ctx' = turn0Leads ctx := by
  unfold handleFormeChange at h
  simp only [require, Bind.bind, Except.bind, pure, Except.pure] at h
  split at h
  · exact Except.noConfusion h
  · cases hsp : parts.get? 2 with
    | none =>
      rw [hsp, updSpecies_none] at h
      exact Except.noConfusion h
    | some sp =>
      rw [hsp] at h
      exact updSpecies_pres _ _ _ _ h


theorem mapCT_presInv (f : TurnSummary → TurnSummary) (hturn : ∀ t, (f t).turn = t.turn)
    (ctx : ParseContext) :
    invB (mapCurrentTurn f ctx) = invB ctx ∧ (mapCurrentTurn f ctx).leadPhase = ctx.leadPhase := by
  refine ⟨?_, rfl⟩
  unfold invB mapCurrentTurn getCurrentTurn
  cases hts : ctx.turns with
  | nil => rfl
  | cons hd tl =>
    cases hidx : ctx.currentTurnIdx with
    | zero => simp [hturn]
    | succ n => simp

theorem setPokemon_leadPhase (c : ParseContext) (r : String) (m : PokemonState) :
    (setPokemon c r m).leadPhase = c.leadPhase := rfl

theorem updActive_leadPhase (c : ParseContext) (r : String) :
    (updateActivePosition c r).leadPhase = c.leadPhase := by
  unfold updateActivePosition
  split <;> rfl

theorem leadEntry_pres (ctx : ParseContext) (e : LeadEntry) :
    invB ({ mapCurrentTurn (fun t => { t with leadEntries := t.leadEntries ++ [e] }) ctx with
      currentAction := none } : ParseContext) = invB ctx ∧
    ({ mapCurrentTurn (fun t => { t with leadEntries := t.leadEntries ++ [e] }) ctx with
      currentAction := none } : ParseContext).leadPhase = ctx.leadPhase := by
  obtain ⟨a1, a2⟩ := mapCT_presInv (fun t => { t with leadEntries := t.leadEntries ++ [e] })
    (fun t => rfl) ctx
  exact ⟨a1, a2⟩

set_option maxHeartbeats 1000000 in
theorem switch_pres (ctx : ParseContext) (parts : List String) (ctx' : ParseContext)
    (h : handleSwitch ctx parts = .ok ctx') :
    invB ctx' = invB ctx ∧ ctx'.leadPhase = ctx.leadPhase ∧
    (ctx.leadPhase = false → turn0Leads ctx' = turn0Leads ctx) := by
  obtain ⟨q1, q2, q3⟩ := finalizePAB_pres ctx
  unfold handleSwitch at h
  simp only [require, Bind.bind, Except.bind, pure, Except.pure] at h
  split at h
  · exact Except.noConfusion h
  · split at h
    · exact Except.noConfusion h
    · rename_i v heq
      obtain ⟨u1, u2, u3⟩ := updSpecies_pres _ _ _ v heq
      have t1 := pres_trans ⟨u1, u2, u3⟩ ⟨q1, q2, q3⟩
      repeat' split at h
      all_goals
        first
          | exact Except.noConfusion h
          | (injection h with h2
             subst h2
             first
               | exact ⟨t1.1, t1.2.1, fun _ => t1.2.2⟩
               | exact ⟨(pres_trans (mapCA_pres _ _) (pres_trans (mapCA_pres _ _) (pres_trans (updActive_pres (setPokemon v _ _) _) t1))).1,
                   (pres_trans (mapCA_pres _ _) (pres_trans (mapCA_pres _ _) (pres_trans (updActive_pres (setPokemon v _ _) _) t1))).2.1,
                   fun _ => (pres_trans (mapCA_pres _ _) (pres_trans (mapCA_pres _ _) (pres_trans (updActive_pres (setPokemon v _ _) _) t1))).2.2⟩
               | exact ⟨(pres_trans (setCA_pres _ _) (pres_trans (updActive_pres (setPokemon v _ _) _) t1)).1,
                   (pres_trans (setCA_pres _ _) (pres_trans (updActive_pres (setPokemon v _ _) _) t1)).2.1,
                   fun _ => (pres_trans (setCA_pres _ _) (pres_trans (updActive_pres (setPokemon v _ _) _) t1)).2.2⟩
               | (refine ⟨(leadEntry_pres _ _).1.trans ((pres_trans (updActive_pres (setPokemon v _ _) _) t1).1),
                    (leadEntry_pres _ _).2.trans ((pres_trans (updActive_pres (setPokemon v _ _) _) t1).2.1),
                    fun hlp => ?_⟩
                  rename (updateActivePosition _ _).leadPhase = true => hguard
                  rw [updActive_leadPhase, setPokemon_leadPhase, u2, q2, hlp] at hguard
                  exact Bool.noConfusion hguard))

set_option maxHeartbeats 1000000 in
theorem processParts_pres12 (ctx : ParseContext) (parts : List String) (ctx' : ParseContext)
    (h : processParts ctx parts = .ok ctx') :
    (invB ctx = true → invB ctx' = true) ∧
    (ctx.leadPhase = false → ctx'.leadPhase = false ∧ turn0Leads ctx' = turn0Leads ctx) := by
  unfold processParts at h
  dsimp only at h
  split at h
  all_goals
    first
      | (injection h with h2
         subst h2
         first
           | exact pres12_of _ _ (player_pres _ _)
           | exact pres12_of _ _ (format_pres _ _)
           | exact pres12_of _ _ (win_pres _ _)
           | exact pres12_of _ _ (loss_pres _ _)
           | exact pres12_turn _ _ (turn_pres _ _)
           | exact pres12_of _ _ (terrain_pres _ _)
           | exact pres12_of _ _ (message_pres _ _)
           | exact pres12_of _ _ ⟨rfl, rfl, rfl⟩)
      | exact pres12_of _ _ (poke_pres _ _ _ h)
      | exact pres12_switch _ _ (switch_pres _ _ _ h)
      | exact pres12_of _ _ (move_pres _ _ _ h)
      | exact pres12_of _ _ (cant_pres _ _ _ h)
      | exact pres12_of _ _ (damage_pres _ _ _ h)
      | exact pres12_of _ _ (boost_pres _ _ _ _ h)
      | exact pres12_of _ _ (status_pres _ _ _ h)
      | exact pres12_of _ _ (cure_pres _ _ _ h)
      | exact pres12_of _ _ (ability_pres _ _ _ h)
      | exact pres12_of _ _ (item_pres _ _ _ _ h)
      | exact pres12_of _ _ (fieldstart_pres _ _ _ h)
      | exact pres12_of _ _ (fieldend_pres _ _ _ h)
      | exact pres12_of _ _ (weather_pres _ _ _ h)
      | exact pres12_of _ _ (sidestart_pres _ _ _ h)
      | exact pres12_of _ _ (sideend_pres _ _ _ h)
      | exact pres12_of _ _ (singleturn_pres _ _ _ h)
      | exact pres12_of _ _ (activate_pres _ _ _ h)
      | exact pres12_of _ _ (fail_pres _ _ _ h)
      | exact pres12_of _ _ (miss_pres _ _ _ h)
      | exact pres12_of _ _ (immune_pres _ _ _ h)
      | exact pres12_of _ _ (faint_pres _ _ _ h)
      | exact pres12_of _ _ (tera_pres _ _ _ h)
      | exact pres12_of _ _ (forme_pres _ _ _ h)

theorem processParts_turn (ctx : ParseContext) (parts : List String) (ctx' : ParseContext)
    (h : processParts ctx parts = .ok ctx') (htag : parts.headD "" = "turn") :
    ctx'.leadPhase = false := by
  unfold processParts at h
  dsimp only at h
  rw [htag] at h
  have h2 : Except.ok (handleTurn ctx parts) = Except.ok ctx' := h
  injection h2 with h3
  subst h3
  exact (turn_pres ctx parts).2.1

theorem processLine_pres (ctx : ParseContext) (line : String) (ctx' : ParseContext)
    (h : processLine ctx line = .ok ctx') :
    (invB ctx = true → invB ctx' = true) ∧
    (ctx.leadPhase = false → ctx'.leadPhase = false ∧ turn0Leads ctx' = turn0Leads ctx) ∧
    (recordTag line = some "turn" → ctx'.leadPhase = false) := by
  unfold processLine at h
  dsimp only at h
  split at h
  · rename_i hsw
    split at h
    · rename_i hempty
      injection h with h2
      subst h2
      refine ⟨fun hi => hi, fun hlp => ⟨hlp, rfl⟩, fun htag => ?_⟩
      unfold recordTag at htag
      dsimp only at htag
      rw [if_pos hsw, if_pos hempty] at htag
      exact Option.noConfusion htag
    · rename_i hempty
      obtain ⟨p1, p2⟩ := processParts_pres12 ctx _ ctx' h
      refine ⟨p1, p2, fun htag => ?_⟩
      refine processParts_turn ctx _ ctx' h ?_
      unfold recordTag at htag
      dsimp only at htag
      rw [if_pos hsw, if_neg hempty] at htag
      exact Option.some.inj htag
  · rename_i hsw
    split at h
    · rename_i hempty
      injection h with h2
      subst h2
      refine ⟨fun hi => hi, fun hlp => ⟨hlp, rfl⟩, fun htag => ?_⟩
      unfold recordTag at htag
      dsimp only at htag
      rw [if_neg hsw, if_pos hempty] at htag
      exact Option.noConfusion htag
    · rename_i hempty
      obtain ⟨p1, p2⟩ := processParts_pres12 ctx _ ctx' h
      refine ⟨p1, p2, fun htag => ?_⟩
      refine processParts_turn ctx _ ctx' h ?_
      unfold recordTag at htag
      dsimp only at htag
      rw [if_neg hsw, if_neg hempty] at htag
      exact Option.some.inj htag
theorem parseFold_inv (lines : List String) :
    ∀ ctx ctx', invB ctx = true → lines.foldlM processLine ctx = .ok ctx' →
      invB ctx' = true := by
  induction lines with
  | nil =>
    intro ctx ctx' hinv h
    injection h with h2
    subst h2
    exact hinv
  | cons hd tl ih =>
    intro ctx ctx' hinv h
    rw [List.foldlM_cons] at h
    simp only [Bind.bind, Except.bind] at h
    split at h
    · exact Except.noConfusion h
    · rename_i c2 heq
      exact ih c2 ctx' ((processLine_pres ctx hd c2 heq).1 hinv) h

set_option allowUnsafeReducibility true in
attribute [semireducible] jsTrim jsToLower jsToUpper toId toIdS toIconId toIconIdS containsSub
set_option allowUnsafeReducibility true in
attribute [semireducible] joinSep jsWords parseHPStatus formatHPStatus prettifyMove simplifyBracketText
set_option allowUnsafeReducibility true in
attribute [semireducible] parseExtras formatExtras jsNumber jsShow jsOr2 jsOrOptS parsePokemonRef
set_option allowUnsafeReducibility true in
attribute [semireducible] getPokemonDisplayName iconHTML escapeHtml makeDetail normalizeFieldName
set_option allowUnsafeReducibility true in
attribute [semireducible] normalizeWeatherName matchAfterTrim dropMoveColon isEndOfTurnSource
set_option allowUnsafeReducibility true in
attribute [semireducible] strStartsWith strEndsWith truthy hasSpeciesOnBothSides jsSetAdd
set_option allowUnsafeReducibility true in
attribute [semireducible] combineDetails consolidateBoostDetails isBoostDetail dedupKeepFirst

/-- C9: the current-turn index always points at the most recently appended
turn and turn 0 (created at construction) stays first: this holds of the
initial context and is preserved by every processed record; once a turn
record is processed the lead-phase flag is false and, whenever the flag is
already false, it stays false and no lead entries are added to turn 0;
consequently the whole fold over any log preserves the structural
invariant. -/
theorem c9_fold_invariants :
    (invB createInitialContext = true ∧ createInitialContext.leadPhase = true ∧
      turn0Leads createInitialContext = []) ∧
    (∀ ctx line ctx', processLine ctx line = .ok ctx' →
      (invB ctx = true → invB ctx' = true) ∧
      (ctx.leadPhase = false → ctx'.leadPhase = false ∧ turn0Leads ctx' = turn0Leads ctx) ∧
      (recordTag line = some "turn" → ctx'.leadPhase = false)) ∧
    (∀ log ctx', parseLogE createInitialContext log = .ok ctx' → invB ctx' = true) := by
  refine ⟨⟨by decide, rfl, rfl⟩, ?_, ?_⟩
  · exact fun ctx line ctx' h => processLine_pres ctx line ctx' h
  · intro log ctx' h
    exact parseFold_inv _ createInitialContext ctx' (by decide) h

theorem c9_fold_invariants_witness :
    processLine createInitialContext "|turn|1" = Except.ok c9AfterTurn ∧
    invB c9AfterTurn = true ∧ c9AfterTurn.leadPhase = false :=
  have heq : processLine createInitialContext "|turn|1" = Except.ok c9AfterTurn := rfl
  ⟨heq,
   (c9_fold_invariants.2.1 createInitialContext "|turn|1" c9AfterTurn heq).1 (by decide),
   (c9_fold_invariants.2.1 createInitialContext "|turn|1" c9AfterTurn heq).2.2 (by decide)⟩

end PsVis
